import Mathlib

/-!
# StagefrightMediaScanner: extension classifier and scan dispatcher

A shallow embedding of `media/libstagefright/StagefrightMediaScanner.cpp`.

* C strings are lists of bytes (`List Nat`, every element below 256); the
  memory a `const char *` points to is the list of the bytes from the pointer
  onwards, the terminating NUL included.
* `int16_t` / `int32_t` values read through `reinterpret_cast` are kept as
  their little-endian bit patterns in `Nat`; the code only applies `|` and
  `==` to them, neither of which can overflow or depends on the sign.
* Calls to the collaborators (sink, MIDI engine, retriever, `open`/`close`)
  are logged, in program order, in a trace of `Event`s; what the collaborators
  answer is given by an `Env`.
-/

namespace StagefrightMediaScanner

/-! ## Bytes and words -/

/-- The bytes of a string literal (all literals of the source are ASCII). -/
def bytesOf (s : String) : List Nat := s.toList.map Char.toNat

/-- The little-endian 16-bit pattern of two bytes. -/
def word16 (b0 b1 : Nat) : Nat := b0 + 256 * b1

/-- The little-endian 32-bit pattern of four bytes. -/
def word32 (b0 b1 b2 b3 : Nat) : Nat := b0 + 256 * b1 + 65536 * b2 + 16777216 * b3

/-- The byte `p[i]` of the memory `p` points to. -/
def byteAt (p : List Nat) (i : Nat) : Nat := p.getD i 0

/-- Read `reinterpret_cast<const int16_t*>(p)[i]`. -/
def rd16 (p : List Nat) (i : Nat) : Nat :=
  word16 (byteAt p (2 * i)) (byteAt p (2 * i + 1))

/-- Read `reinterpret_cast<const int32_t*>(p)[i]`. -/
def rd32 (p : List Nat) (i : Nat) : Nat :=
  word32 (byteAt p (4 * i)) (byteAt p (4 * i + 1)) (byteAt p (4 * i + 2)) (byteAt p (4 * i + 3))

/-! ## FileHasAcceptableExtension -/

/-- The static table `kValidExtensions` (source lines 106-126), the implicit
terminating NUL of the string literal included. -/
def kValidExtensions : List Nat :=
  bytesOf ("fl" ++ "ts"
    ++ "ota rtx xmf imy smf mid "
    ++ "awb mpg avi mka mkv amr wav aac wma ogg "
    ++ "\x00 \x00 3g2 " ++ "\x00   3gp " ++ " \x00  m4a " ++ "  \x00 mp4 " ++ "  \x00 mp3 "
    ++ "midi" ++ "mxmf"
    ++ "mpga" ++ "webm" ++ "mpeg" ++ "flac"
    ++ "\x00   3gpp2\x00\x00\x00"
    ++ "rtttl\x00\x00\x00") ++ [0]

def num2 : Nat := 2
/-- The source computes `(num2+1) * sizeof(int16_t) / sizeof(int32_t)`. -/
def size2 : Nat := (num2 + 1) * 2 / 4
def num3MIDI : Nat := 6
def num3NonMIDIA : Nat := 10
def num3NonMIDIN : Nat := 5
def size3 : Nat := num3MIDI + num3NonMIDIA + 2 * num3NonMIDIN
def num4MIDI : Nat := 2
def num4NonMIDIA : Nat := 4
def num4NonMIDIN : Nat := 1
def size4 : Nat := num4MIDI + num4NonMIDIA + 2 * num4NonMIDIN

/-- The loop `for (count = n-1; count >= 0; --count) if (extexpr == base[count]) return ...;`
over 16-bit words; the argument is `count + 1`, the result tells whether the
loop returned. -/
def scan16 (tbl : List Nat) (base extexpr : Nat) : Nat → Bool
  | 0 => false
  | count + 1 =>
    if extexpr = rd16 tbl (base + count) then true else scan16 tbl base extexpr count

/-- The loop `for (; count >= 0; --count) if (extexpr == base[count]) return ...;`
over 32-bit words; the argument is `count + 1`. -/
def scan32 (tbl : List Nat) (base extexpr : Nat) : Nat → Bool
  | 0 => false
  | count + 1 =>
    if extexpr = rd32 tbl (base + count) then true else scan32 tbl base extexpr count

/-- The loop `for (; count >= 0; count -= 2)
if ((extexpr | base[count]) == base[count+1]) return 1;`; the argument is
`count / 2 + 1`, the number of (mask, value) pairs still to test. -/
def scanMasked (tbl : List Nat) (base extexpr : Nat) : Nat → Bool
  | 0 => false
  | n + 1 =>
    if extexpr ||| rd32 tbl (base + 2 * n) = rd32 tbl (base + 2 * n + 1) then true
    else scanMasked tbl base extexpr n

/-- The body of `FileHasAcceptableExtension` (source lines 138-186) over an
arbitrary table `tbl`; `base` pointers are word offsets into `tbl`. -/
def FileHasAcceptableExtensionOn (tbl : List Nat) (extension : List Nat) (len : Int) : Int :=
  if len < 2 ∨ len > 5 then -1
  else if len = 2 then
    let extexpr := rd16 extension 0 ||| 0x2020
    if scan16 tbl 0 extexpr num2 then 1 else -1
  else
    let extexpr := rd32 extension 0
    if len = 5 then
      let base := (size2 + size3 + size4) - 1 * 2
      if (extexpr ||| rd32 tbl (base + 0)) = rd32 tbl (base + 1) ∧ byteAt extension 4 = 0x32 then 1
      else if (extexpr ||| 0x20202020) = rd32 tbl (base + 3)
          ∧ (byteAt extension 4 ||| 0x20) = 0x6c then 0
      else -1
    else
      -- Non-MIDI with numeric
      let base := if len = 3 then size2 + size3 - num3NonMIDIN * 2
                  else size2 + size3 + size4 - num4NonMIDIN * 2
      let pairs := if len = 3 then num3NonMIDIN else num4NonMIDIN
      if scanMasked tbl base extexpr pairs then 1
      else
        -- Non-MIDI without numeric
        let count := if len = 3 then num3NonMIDIA else num4NonMIDIA
        let extexpr := extexpr ||| 0x20202020
        let base := base - count
        if scan32 tbl base extexpr count then 1
        else
          -- MIDI
          let count := if len = 3 then num3MIDI else num4MIDI
          let base := base - count
          if scan32 tbl base extexpr count then 0
          else -1

/-- The source function: 0 for MIDI, 1 for other valid types, -1 for
non-valid. -/
def FileHasAcceptableExtension (extension : List Nat) (len : Int) : Int :=
  FileHasAcceptableExtensionOn kValidExtensions extension len

/-- The memory of the C string with content `s`: its bytes and the NUL. -/
def cstr (s : List Nat) : List Nat := s ++ [0]

/-! ## The table entries, by length and group, in the order the code tests them -/

def grp2 : List (List Nat) := ["ts", "fl"].map bytesOf

def grp3N : List (List Nat) := ["mp3", "mp4", "m4a", "3gp", "3g2"].map bytesOf

def grp3A : List (List Nat) :=
  ["ogg", "wma", "aac", "wav", "amr", "mkv", "mka", "avi", "mpg", "awb"].map bytesOf

def grp3M : List (List Nat) := ["mid", "smf", "imy", "xmf", "rtx", "ota"].map bytesOf

def grp4N : List (List Nat) := ["3gpp"].map bytesOf

def grp4A : List (List Nat) := ["flac", "mpeg", "webm", "mpga"].map bytesOf

def grp4M : List (List Nat) := ["mxmf", "midi"].map bytesOf

/-! ## The documented semantics of the classifier -/

/-- ASCII lower-casing of one byte: `A`..`Z` go to `a`..`z`, every other byte
is unchanged. -/
def asciiLower (b : Nat) : Nat := if 65 ≤ b ∧ b ≤ 90 then b + 32 else b

/-- The extensions the specification names as MIDI. -/
def specMIDI : List String :=
  ["ota", "rtx", "xmf", "imy", "smf", "mid", "midi", "mxmf", "rtttl"]

/-- The extensions the specification names as other recognized media. -/
def specOther : List String :=
  ["fl", "ts", "awb", "mpg", "avi", "mka", "mkv", "amr", "wav", "aac", "wma", "ogg",
   "3g2", "3gp", "m4a", "mp4", "mp3", "mpga", "webm", "mpeg", "flac", "3gpp", "3gpp2"]

/-- The classifier as the specification words it: a case-insensitive
membership test against the two fixed sets. -/
def classifyByMembership (ext : List Nat) : Int :=
  if ext.map asciiLower ∈ specMIDI.map bytesOf then 0
  else if ext.map asciiLower ∈ specOther.map bytesOf then 1
  else -1

/-- The case variants of a table entry: `x` is `c` itself, or the upper-case
form of the lower-case letter `c`. -/
def caseVariantByte (c x : Nat) : Bool :=
  x == c || (97 ≤ c && c ≤ 122 && x + 32 == c)

/-- Whether `ext` is `s` with some of its ASCII letters in upper case. -/
def caseVariant : List Nat → List Nat → Bool
  | [], [] => true
  | c :: s, x :: ext => caseVariantByte c x && caseVariant s ext
  | _, _ => false

/-- The extensions the specification documents as MIDI (section 8). -/
def docMIDI : List String :=
  ["mid", "midi", "smf", "xmf", "rtx", "ota", "imy", "mxmf", "rtttl"]

/-- The extensions the specification documents as other-recognized
(section 8). -/
def docOther : List String :=
  ["mp3", "mp4", "wav", "aac", "ogg", "wma", "amr", "avi", "mpg", "mka", "mkv", "awb",
   "flac", "webm", "mpeg", "mpga", "3gp", "3g2", "3gpp2", "m4a"]

/-! ## Collaborators, events and the environment -/

inductive MediaScanResult
  | MEDIA_SCAN_RESULT_OK
  | MEDIA_SCAN_RESULT_SKIPPED
  | MEDIA_SCAN_RESULT_ERROR
  deriving DecidableEq, Repr

/-- The retriever keys the source uses. -/
inductive MetadataKey
  | METADATA_KEY_CD_TRACK_NUMBER
  | METADATA_KEY_DISC_NUMBER
  | METADATA_KEY_ALBUM
  | METADATA_KEY_ARTIST
  | METADATA_KEY_ALBUMARTIST
  | METADATA_KEY_COMPOSER
  | METADATA_KEY_GENRE
  | METADATA_KEY_TITLE
  | METADATA_KEY_YEAR
  | METADATA_KEY_DURATION
  | METADATA_KEY_WRITER
  | METADATA_KEY_COMPILATION
  | METADATA_KEY_IS_DRM
  | METADATA_KEY_VIDEO_WIDTH
  | METADATA_KEY_VIDEO_HEIGHT
  | METADATA_KEY_MIMETYPE
  deriving DecidableEq, Repr

/-- One call to a collaborator, with what it returned. Handles are `Option
Nat`, `none` being `NULL`; a `const char *` result is `Option String`. -/
inductive Event
  | setLocale (locale : String)
  | beginFile
  | endFile
  | setMimeType (value : String) (status : Int)
  | addStringTag (tag value : String) (status : Int)
  | EAS_Config
  | EAS_Init (result : Int) (easData : Option Nat)
  | EAS_OpenFile (path : List Nat) (result : Int) (easHandle : Option Nat)
  | EAS_Prepare (result : Int)
  | EAS_ParseMetaData (result : Int) (playLength : Int)
  | EAS_CloseFile (easHandle : Nat)
  | EAS_Shutdown (easData : Nat)
  | newRetriever
  | sys_open (path : List Nat) (fd : Int)
  | sys_close (fd : Int)
  | setDataSourcePath (path : List Nat) (status : Int)
  | setDataSourceFd (fd : Int) (status : Int)
  | extractMetadata (key : MetadataKey) (value : Option String)
  deriving DecidableEq, Repr

/-- What the collaborators answer during one scan. The engine, `open` and the
retriever are asked each question at most once per scan, so their answers are
plain values; the sink may answer a write depending on everything that
happened before it (the trace so far). -/
structure Env where
  locale : String
  LIB_VERSION : Nat
  /-- `EAS_Config()`: `none` for `NULL`, else the `libVersion` field. -/
  EAS_Config : Option Nat
  /-- `EAS_Init(&easData)`: the result and the data handle it stored. -/
  EAS_Init : Int × Option Nat
  /-- `EAS_OpenFile(easData, &file, &easHandle)` for the file at a path. -/
  EAS_OpenFile : List Nat → Int × Option Nat
  EAS_Prepare : Int
  /-- `EAS_ParseMetaData(easData, easHandle, &temp)`: result and `temp`. -/
  EAS_ParseMetaData : Int × Int
  /-- `open(path, O_RDONLY | O_LARGEFILE)`. -/
  sys_open : List Nat → Int
  setDataSourcePath : List Nat → Int
  setDataSourceFd : Int → Int
  extractMetadata : MetadataKey → Option String
  setMimeType : List Event → String → Int
  addStringTag : List Event → String → String → Int

def EAS_SUCCESS : Int := 0

/-- The `status_t` value `OK`. -/
def OK : Int := 0

/-- The text `sprintf(buffer, "%ld", temp)` writes: the decimal representation
of `temp`, with a leading minus sign when negative. (The 20-byte bound of
`buffer` is not part of the embedding.) -/
def sprintf_ld (temp : Int) : String := toString temp

open MediaScanResult in
/-- `HandleMIDI` (source lines 40-86). `temp` is uninitialised in the source
until `EAS_ParseMetaData` stores it; it is read only after that call
succeeded. -/
def HandleMIDI (env : Env) (filename : List Nat) (tr : List Event) :
    MediaScanResult × List Event :=
  -- get the library configuration and do sanity check
  let tr := tr ++ [Event.EAS_Config]
  match env.EAS_Config with
  | none => (MEDIA_SCAN_RESULT_ERROR, tr)
  | some libVersion =>
    if env.LIB_VERSION ≠ libVersion then (MEDIA_SCAN_RESULT_ERROR, tr)
    else
      -- spin up a new EAS engine
      let result := env.EAS_Init.1
      let easData := env.EAS_Init.2
      let tr := tr ++ [Event.EAS_Init result easData]
      let opened : Int × Option Nat × List Event :=
        if result = EAS_SUCCESS then
          ((env.EAS_OpenFile filename).1, (env.EAS_OpenFile filename).2,
            tr ++ [Event.EAS_OpenFile filename (env.EAS_OpenFile filename).1
              (env.EAS_OpenFile filename).2])
        else (result, none, tr)
      let result := opened.1
      let easHandle := opened.2.1
      let tr := opened.2.2
      let prepared : Int × List Event :=
        if result = EAS_SUCCESS then (env.EAS_Prepare, tr ++ [Event.EAS_Prepare env.EAS_Prepare])
        else (result, tr)
      let result := prepared.1
      let tr := prepared.2
      let parsed : Int × Int × List Event :=
        if result = EAS_SUCCESS then
          (env.EAS_ParseMetaData.1, env.EAS_ParseMetaData.2,
            tr ++ [Event.EAS_ParseMetaData env.EAS_ParseMetaData.1 env.EAS_ParseMetaData.2])
        else (result, 0, tr)
      let result := parsed.1
      let temp := parsed.2.1
      let tr := parsed.2.2
      let tr := match easHandle with
        | some h => tr ++ [Event.EAS_CloseFile h]
        | none => tr
      let tr := match easData with
        | some d => tr ++ [Event.EAS_Shutdown d]
        | none => tr
      if result ≠ EAS_SUCCESS then (MEDIA_SCAN_RESULT_SKIPPED, tr)
      else
        let buffer := sprintf_ld temp
        let status := env.addStringTag tr "duration" buffer
        let tr := tr ++ [Event.addStringTag "duration" buffer status]
        if status ≠ OK then (MEDIA_SCAN_RESULT_ERROR, tr)
        else (MEDIA_SCAN_RESULT_OK, tr)

open MetadataKey in
/-- The table `kKeyMap` (source lines 238-254). -/
def kKeyMap : List (String × MetadataKey) :=
  [("tracknumber", METADATA_KEY_CD_TRACK_NUMBER),
   ("discnumber", METADATA_KEY_DISC_NUMBER),
   ("album", METADATA_KEY_ALBUM),
   ("artist", METADATA_KEY_ARTIST),
   ("albumartist", METADATA_KEY_ALBUMARTIST),
   ("composer", METADATA_KEY_COMPOSER),
   ("genre", METADATA_KEY_GENRE),
   ("title", METADATA_KEY_TITLE),
   ("year", METADATA_KEY_YEAR),
   ("duration", METADATA_KEY_DURATION),
   ("writer", METADATA_KEY_WRITER),
   ("compilation", METADATA_KEY_COMPILATION),
   ("isdrm", METADATA_KEY_IS_DRM),
   ("width", METADATA_KEY_VIDEO_WIDTH),
   ("height", METADATA_KEY_VIDEO_HEIGHT)]

open MediaScanResult in
/-- The loop over `kKeyMap` (source lines 257-267), on the entries still to
visit. -/
def tagLoop (env : Env) : List (String × MetadataKey) → List Event →
    MediaScanResult × List Event
  | [], tr => (MEDIA_SCAN_RESULT_OK, tr)
  | (tag, key) :: rest, tr =>
    let value := env.extractMetadata key
    let tr := tr ++ [Event.extractMetadata key value]
    match value with
    | none => tagLoop env rest tr
    | some v =>
      let status := env.addStringTag tr tag v
      let tr := tr ++ [Event.addStringTag tag v status]
      if status ≠ OK then (MEDIA_SCAN_RESULT_ERROR, tr)
      else tagLoop env rest tr

/-- The loop `while (extoffset >= 0 && path[extoffset] != 0x2e) --extoffset;`
(source line 194); the argument is `extoffset + 1`, the result the final
`extoffset`. -/
def findExtOffset (path : List Nat) : Nat → Int
  | 0 => -1
  | extoffset + 1 =>
    if byteAt path extoffset ≠ 0x2e then findExtOffset path extoffset
    else (extoffset : Int)

open MediaScanResult in
/-- The metadata part of `processFileInternal` (source lines 225-267): the
MIME type, when the retriever has one, then the loop over `kKeyMap`. -/
def forwardMetadata (env : Env) (tr : List Event) : MediaScanResult × List Event :=
  let value := env.extractMetadata MetadataKey.METADATA_KEY_MIMETYPE
  let tr := tr ++ [Event.extractMetadata MetadataKey.METADATA_KEY_MIMETYPE value]
  match value with
  | some v =>
    let status := env.setMimeType tr v
    let tr := tr ++ [Event.setMimeType v status]
    if status ≠ 0 then (MEDIA_SCAN_RESULT_ERROR, tr)
    else tagLoop env kKeyMap tr
  | none => tagLoop env kKeyMap tr

open MediaScanResult in
/-- The non-MIDI part of `processFileInternal` (source lines 209-267): the
retriever is created, the data source set, and the metadata forwarded. -/
def retrieveTags (env : Env) (path : List Nat) (tr : List Event) :
    MediaScanResult × List Event :=
  let tr := tr ++ [Event.newRetriever]
  let fd := env.sys_open path
  let tr := tr ++ [Event.sys_open path fd]
  let sourced : Int × List Event :=
    if fd < 0 then
      -- could not open it locally, maybe the media server can?
      (env.setDataSourcePath path,
        tr ++ [Event.setDataSourcePath path (env.setDataSourcePath path)])
    else
      (env.setDataSourceFd fd,
        tr ++ [Event.setDataSourceFd fd (env.setDataSourceFd fd), Event.sys_close fd])
  let status := sourced.1
  let tr := sourced.2
  if status ≠ 0 then (MEDIA_SCAN_RESULT_ERROR, tr)
  else forwardMetadata env tr

open MediaScanResult in
/-- `StagefrightMediaScanner::processFileInternal` (source lines 189-268).
`path` is the content of the C string, `cstr path` its memory; the `mimeType`
argument is unnamed and unused in the source. -/
def processFileInternal (env : Env) (path : List Nat) (_mimeType : Option (List Nat))
    (tr : List Event) : MediaScanResult × List Event :=
  let length : Int := path.length
  let extoffset := findExtOffset (cstr path) (path.length + 1)
  if extoffset < 0 then (MEDIA_SCAN_RESULT_SKIPPED, tr)
  else
    let extoffset := extoffset + 1 -- No need to compare the dot
    let extension := (cstr path).drop extoffset.toNat
    let filetype := FileHasAcceptableExtension extension (length - extoffset)
    if filetype < 0 then (MEDIA_SCAN_RESULT_SKIPPED, tr)
    else if filetype = 0 then HandleMIDI env path tr
    else retrieveTags env path tr

/-- `StagefrightMediaScanner::processFile` (source lines 88-98); the trace of
one call starts empty. -/
def processFile (env : Env) (path : List Nat) (mimeType : Option (List Nat)) :
    MediaScanResult × List Event :=
  let tr := [Event.setLocale env.locale]
  let tr := tr ++ [Event.beginFile]
  let out := processFileInternal env path mimeType tr
  let result := out.1
  let tr := out.2 ++ [Event.endFile]
  (result, tr)

/-! ## Reading a trace -/

/-- The calls made on the sink (the `MediaScannerClient`). -/
def isSinkCall : Event → Bool
  | Event.setLocale _ => true
  | Event.beginFile => true
  | Event.endFile => true
  | Event.setMimeType _ _ => true
  | Event.addStringTag _ _ _ => true
  | _ => false

/-- The sink calls that deliver data: `setMimeType` and `addStringTag`. -/
def isTagCall : Event → Bool
  | Event.setMimeType _ _ => true
  | Event.addStringTag _ _ _ => true
  | _ => false

def sinkCalls (tr : List Event) : List Event := tr.filter isSinkCall

/-- The `(tag, value)` pairs of the `addStringTag` calls of a trace, in
order. -/
def addStringTagCalls (tr : List Event) : List (String × String) :=
  tr.filterMap fun e =>
    match e with
    | Event.addStringTag tag value _ => some (tag, value)
    | _ => none

/-- The events a call appended to the trace `tr` it started from. -/
def eventsSince (tr out : List Event) : List Event := out.drop tr.length

/-- The status the retriever gives for the data source of `path`: for the
descriptor when `open` succeeded, else for the bare path. -/
def dataSourceStatus (env : Env) (path : List Nat) : Int :=
  if env.sys_open path < 0 then env.setDataSourcePath path
  else env.setDataSourceFd (env.sys_open path)

/-- An environment in which the engine is missing and everything else
succeeds with no metadata. -/
def quietEnv : Env where
  locale := "en_US"
  LIB_VERSION := 1
  EAS_Config := none
  EAS_Init := (0, some 1)
  EAS_OpenFile := fun _ => (0, some 2)
  EAS_Prepare := 0
  EAS_ParseMetaData := (0, 1234)
  sys_open := fun _ => 3
  setDataSourcePath := fun _ => 0
  setDataSourceFd := fun _ => 0
  extractMetadata := fun _ => none
  setMimeType := fun _ _ => 0
  addStringTag := fun _ _ _ => 0

/-- The calls made on the MIDI engine. -/
def isEngineCall : Event → Bool
  | Event.EAS_Config => true
  | Event.EAS_Init _ _ => true
  | Event.EAS_OpenFile _ _ _ => true
  | Event.EAS_Prepare _ => true
  | Event.EAS_ParseMetaData _ _ => true
  | Event.EAS_CloseFile _ => true
  | Event.EAS_Shutdown _ => true
  | _ => false

/-- The engine calls `HandleMIDI` makes once the library version has been
accepted, in order: the calls up to the first failure, then the release of
the handles that were produced. -/
def engineEvents (env : Env) (filename : List Nat) : List Event :=
  let easHandle := if env.EAS_Init.1 = EAS_SUCCESS then (env.EAS_OpenFile filename).2 else none
  [Event.EAS_Config, Event.EAS_Init env.EAS_Init.1 env.EAS_Init.2]
  ++ (if env.EAS_Init.1 = EAS_SUCCESS then
        [Event.EAS_OpenFile filename (env.EAS_OpenFile filename).1 (env.EAS_OpenFile filename).2]
        ++ (if (env.EAS_OpenFile filename).1 = EAS_SUCCESS then
              [Event.EAS_Prepare env.EAS_Prepare]
              ++ (if env.EAS_Prepare = EAS_SUCCESS then
                    [Event.EAS_ParseMetaData env.EAS_ParseMetaData.1 env.EAS_ParseMetaData.2]
                  else [])
            else [])
      else [])
  ++ (match easHandle with
      | some h => [Event.EAS_CloseFile h]
      | none => [])
  ++ (match env.EAS_Init.2 with
      | some d => [Event.EAS_Shutdown d]
      | none => [])

/-- Every engine call of `HandleMIDI` succeeds. -/
def engineSucceeds (env : Env) (filename : List Nat) : Prop :=
  env.EAS_Init.1 = EAS_SUCCESS ∧ (env.EAS_OpenFile filename).1 = EAS_SUCCESS ∧
    env.EAS_Prepare = EAS_SUCCESS ∧ env.EAS_ParseMetaData.1 = EAS_SUCCESS

instance (env : Env) (filename : List Nat) : Decidable (engineSucceeds env filename) := by
  unfold engineSucceeds
  infer_instance

/-- The sink calls that bracket a scan or configure the sink: `setLocale`,
`beginFile` and `endFile`. -/
def isBracketCall : Event → Bool
  | Event.setLocale _ => true
  | Event.beginFile => true
  | Event.endFile => true
  | _ => false

/-- A sink write (`setMimeType` or `addStringTag`) that the sink rejected. -/
def isRejectedWrite : Event → Bool
  | Event.setMimeType _ status => status != 0
  | Event.addStringTag _ _ status => status != 0
  | _ => false

/-- The events of the metadata loop: `extractMetadata` and `addStringTag`. -/
def isLoopEvent : Event → Bool
  | Event.extractMetadata _ _ => true
  | Event.addStringTag _ _ _ => true
  | _ => false

/-- An environment whose engine has the expected version but fails to
prepare the file. -/
def failingPrepareEnv : Env :=
  { quietEnv with EAS_Config := some 1, EAS_Prepare := -1 }

/-- An environment whose engine parses the file and reports the duration
1234, and whose retriever knows a title and an artist. -/
def workingEnv : Env :=
  { quietEnv with
    EAS_Config := some 1
    extractMetadata := fun key =>
      match key with
      | MetadataKey.METADATA_KEY_TITLE => some "Song"
      | MetadataKey.METADATA_KEY_ARTIST => some "Band"
      | _ => none }

/-- An ASCII letter, of either case. -/
def isAsciiLetter (b : Nat) : Bool := (65 ≤ b && b ≤ 90) || (97 ≤ b && b ≤ 122)

/-- The text after the last dot of a path (the whole path when it has no
dot). -/
def lastExtension (path : List Nat) : List Nat :=
  (path.reverse.takeWhile (fun b => b != 0x2e)).reverse

/-- An engine resource: the data handle of `EAS_Init` or the file handle of
`EAS_OpenFile`. -/
inductive Resource
  | data (easData : Nat)
  | file (easHandle : Nat)
  deriving DecidableEq, Repr

/-- The resources the engine handed out during a trace, in order: an
`EAS_Init` or `EAS_OpenFile` call that stored a non-NULL handle. -/
def acquired (tr : List Event) : List Resource :=
  tr.filterMap fun e =>
    match e with
    | Event.EAS_Init _ (some d) => some (Resource.data d)
    | Event.EAS_OpenFile _ _ (some h) => some (Resource.file h)
    | _ => none

/-- The resources given back during a trace, in order: `EAS_CloseFile` and
`EAS_Shutdown` calls. -/
def released (tr : List Event) : List Resource :=
  tr.filterMap fun e =>
    match e with
    | Event.EAS_CloseFile h => some (Resource.file h)
    | Event.EAS_Shutdown d => some (Resource.data d)
    | _ => none

/-- In the events `new` of a call with result `r`, a rejected sink write is
the last event and makes the result ERROR. -/
def rejectedOnlyLast (new : List Event) (r : MediaScanResult) : Prop :=
  ∀ pre e post, new = pre ++ e :: post → isRejectedWrite e = true →
    post = [] ∧ r = MediaScanResult.MEDIA_SCAN_RESULT_ERROR

/-- An environment whose retriever knows an artist and a title and whose sink
rejects the tag "title". -/
def rejectingEnv : Env :=
  { workingEnv with addStringTag := fun _ tag _ => if tag = "title" then -1 else 0 }

/-- A decimal digit. -/
def isDigit (b : Nat) : Bool := 48 ≤ b && b ≤ 57

/-- The table entries of length 3 and 4 that hold a digit. -/
def numericEntries : List String := ["3g2", "3gp", "m4a", "mp4", "mp3", "3gpp"]

/-- Whether `ext` has the letters of the entry `s` up to ASCII case and some
decimal digit wherever `s` has a digit. -/
def digitVariant : List Nat → List Nat → Bool
  | [], [] => true
  | c :: s, x :: ext =>
    (if isDigit c then isDigit x else caseVariantByte c x) && digitVariant s ext
  | _, _ => false

/-! ## The three groups of a length class -/

/-- The groups of entries the code searches for `len` 3 and 4. -/
inductive Group
  | numeric
  | alpha
  | midi
  deriving DecidableEq, Repr

/-- The pointer `base` of the numeric group (source lines 163-164), as a word
offset. -/
def groupBase (len : Int) : Nat :=
  if len = 3 then size2 + size3 - num3NonMIDIN * 2
  else size2 + size3 + size4 - num4NonMIDIN * 2

/-- Whether the loop over a group finds a matching entry (source lines
165-168, 171-177 and 180-185), for `len` 3 or 4. -/
def groupMatches (tbl extension : List Nat) (len : Int) : Group → Bool
  | Group.numeric =>
    scanMasked tbl (groupBase len) (rd32 extension 0)
      (if len = 3 then num3NonMIDIN else num4NonMIDIN)
  | Group.alpha =>
    scan32 tbl (groupBase len - (if len = 3 then num3NonMIDIA else num4NonMIDIA))
      (rd32 extension 0 ||| 0x20202020) (if len = 3 then num3NonMIDIA else num4NonMIDIA)
  | Group.midi =>
    scan32 tbl
      (groupBase len - (if len = 3 then num3NonMIDIA else num4NonMIDIA)
        - (if len = 3 then num3MIDI else num4MIDI))
      (rd32 extension 0 ||| 0x20202020) (if len = 3 then num3MIDI else num4MIDI)

/-- The value returned when a group matches. -/
def groupClass : Group → Int
  | Group.numeric => 1
  | Group.alpha => 1
  | Group.midi => 0

/-- The search with the groups tried in the given order, the first matching
group deciding the result. -/
def searchGroups (tbl extension : List Nat) (len : Int) (order : List Group) : Int :=
  match order.find? (groupMatches tbl extension len) with
  | some g => groupClass g
  | none => -1

/-- The first test of the `len == 5` branch (source line 155). -/
def test3gpp2 (tbl extension : List Nat) : Bool :=
  decide ((rd32 extension 0 ||| rd32 tbl ((size2 + size3 + size4) - 1 * 2 + 0))
      = rd32 tbl ((size2 + size3 + size4) - 1 * 2 + 1)
    ∧ byteAt extension 4 = 0x32)

/-- The second test of the `len == 5` branch (source lines 156-157). -/
def testRtttl (tbl extension : List Nat) : Bool :=
  decide ((rd32 extension 0 ||| 0x20202020) = rd32 tbl ((size2 + size3 + size4) - 1 * 2 + 3)
    ∧ (byteAt extension 4 ||| 0x20) = 0x6c)

/-! ## The table reads of the classifier -/

/-- One read of the table through a reinterpreted pointer: the 16-bit word
or the 32-bit word with the given index. -/
inductive TableRead
  | w16 (i : Nat)
  | w32 (i : Nat)
  deriving DecidableEq, Repr

/-- The loop of `scan16` with the table words it reads, in order. -/
def scan16Log (tbl : List Nat) (base extexpr : Nat) : Nat → Bool × List TableRead
  | 0 => (false, [])
  | count + 1 =>
    if extexpr = rd16 tbl (base + count) then (true, [TableRead.w16 (base + count)])
    else
      ((scan16Log tbl base extexpr count).1,
        TableRead.w16 (base + count) :: (scan16Log tbl base extexpr count).2)

/-- The loop of `scan32` with the table words it reads, in order. -/
def scan32Log (tbl : List Nat) (base extexpr : Nat) : Nat → Bool × List TableRead
  | 0 => (false, [])
  | count + 1 =>
    if extexpr = rd32 tbl (base + count) then (true, [TableRead.w32 (base + count)])
    else
      ((scan32Log tbl base extexpr count).1,
        TableRead.w32 (base + count) :: (scan32Log tbl base extexpr count).2)

/-- The loop of `scanMasked` with the table words it reads, in order: the
mask `base[count]`, then the value `base[count+1]`. -/
def scanMaskedLog (tbl : List Nat) (base extexpr : Nat) : Nat → Bool × List TableRead
  | 0 => (false, [])
  | n + 1 =>
    if extexpr ||| rd32 tbl (base + 2 * n) = rd32 tbl (base + 2 * n + 1) then
      (true, [TableRead.w32 (base + 2 * n), TableRead.w32 (base + 2 * n + 1)])
    else
      ((scanMaskedLog tbl base extexpr n).1,
        TableRead.w32 (base + 2 * n) :: TableRead.w32 (base + 2 * n + 1) ::
          (scanMaskedLog tbl base extexpr n).2)

/-- The body of `FileHasAcceptableExtension` (source lines 138-186) with the
table words it reads, in program order. -/
def FileHasAcceptableExtensionLog (tbl : List Nat) (extension : List Nat) (len : Int) :
    Int × List TableRead :=
  if len < 2 ∨ len > 5 then (-1, [])
  else if len = 2 then
    let extexpr := rd16 extension 0 ||| 0x2020
    let r := scan16Log tbl 0 extexpr num2
    (if r.1 then 1 else -1, r.2)
  else
    let extexpr := rd32 extension 0
    if len = 5 then
      let base := (size2 + size3 + size4) - 1 * 2
      if (extexpr ||| rd32 tbl (base + 0)) = rd32 tbl (base + 1) ∧ byteAt extension 4 = 0x32 then
        (1, [TableRead.w32 (base + 0), TableRead.w32 (base + 1)])
      else if (extexpr ||| 0x20202020) = rd32 tbl (base + 3)
          ∧ (byteAt extension 4 ||| 0x20) = 0x6c then
        (0, [TableRead.w32 (base + 0), TableRead.w32 (base + 1), TableRead.w32 (base + 3)])
      else (-1, [TableRead.w32 (base + 0), TableRead.w32 (base + 1), TableRead.w32 (base + 3)])
    else
      -- Non-MIDI with numeric
      let base := if len = 3 then size2 + size3 - num3NonMIDIN * 2
                  else size2 + size3 + size4 - num4NonMIDIN * 2
      let pairs := if len = 3 then num3NonMIDIN else num4NonMIDIN
      let rN := scanMaskedLog tbl base extexpr pairs
      if rN.1 then (1, rN.2)
      else
        -- Non-MIDI without numeric
        let count := if len = 3 then num3NonMIDIA else num4NonMIDIA
        let extexpr := extexpr ||| 0x20202020
        let base := base - count
        let rA := scan32Log tbl base extexpr count
        if rA.1 then (1, rN.2 ++ rA.2)
        else
          -- MIDI
          let count := if len = 3 then num3MIDI else num4MIDI
          let base := base - count
          let rM := scan32Log tbl base extexpr count
          (if rM.1 then 0 else -1, rN.2 ++ rA.2 ++ rM.2)

/-- The words a full pass of `scan16` reads. -/
def desc16 (base : Nat) : Nat → List TableRead
  | 0 => []
  | count + 1 => TableRead.w16 (base + count) :: desc16 base count

/-- The words a full pass of `scan32` reads. -/
def desc32 (base : Nat) : Nat → List TableRead
  | 0 => []
  | count + 1 => TableRead.w32 (base + count) :: desc32 base count

/-- The words a full pass of `scanMasked` reads. -/
def descMasked (base : Nat) : Nat → List TableRead
  | 0 => []
  | n + 1 =>
    TableRead.w32 (base + 2 * n) :: TableRead.w32 (base + 2 * n + 1) :: descMasked base n

/-- The table words of the length class `len`, in the order a search that
matches nothing reads them; the offsets are those the code computes from
`size2`, `size3` and `size4`. -/
def scanOrder (len : Int) : List TableRead :=
  if len = 2 then desc16 0 num2
  else if len = 5 then
    [TableRead.w32 ((size2 + size3 + size4) - 1 * 2 + 0),
     TableRead.w32 ((size2 + size3 + size4) - 1 * 2 + 1),
     TableRead.w32 ((size2 + size3 + size4) - 1 * 2 + 3)]
  else if len = 3 then
    descMasked (size2 + size3 - num3NonMIDIN * 2) num3NonMIDIN
    ++ desc32 (size2 + size3 - num3NonMIDIN * 2 - num3NonMIDIA) num3NonMIDIA
    ++ desc32 (size2 + size3 - num3NonMIDIN * 2 - num3NonMIDIA - num3MIDI) num3MIDI
  else
    descMasked (size2 + size3 + size4 - num4NonMIDIN * 2) num4NonMIDIN
    ++ desc32 (size2 + size3 + size4 - num4NonMIDIN * 2 - num4NonMIDIA) num4NonMIDIA
    ++ desc32 (size2 + size3 + size4 - num4NonMIDIN * 2 - num4NonMIDIA - num4MIDI) num4MIDI

/-- A read that stays inside `kValidExtensions`: all its bytes are bytes of
the 38 32-bit words of the table. -/
def inTable : TableRead → Bool
  | TableRead.w16 i => 2 * i + 1 < 4 * 38 && 2 * i + 1 < kValidExtensions.length
  | TableRead.w32 i => i < 38 && 4 * i + 3 < kValidExtensions.length

/-- The 32-bit words `lo..hi` of the table. -/
def words32 (lo hi : Nat) : List TableRead :=
  (List.range' lo (hi + 1 - lo)).map TableRead.w32

/-- The table words of each length class as the specification lists them,
group after group. -/
def classWords (len : Int) : List TableRead :=
  if len = 2 then [TableRead.w16 0, TableRead.w16 1]
  else if len = 3 then words32 17 26 ++ words32 7 16 ++ words32 1 6
  else if len = 4 then words32 33 34 ++ words32 29 32 ++ words32 27 28
  else [TableRead.w32 33, TableRead.w32 34, TableRead.w32 36]

/-! # Proofs -/

/-! ## Bitwise or on bytes -/

theorem lor_mod256 (x y : Nat) : (x ||| y) % 256 = x % 256 ||| y % 256 := by
  apply Nat.eq_of_testBit_eq
  intro i
  have h : (256 : Nat) = 2 ^ 8 := by norm_num
  rw [h]
  simp only [Nat.testBit_mod_two_pow, Nat.testBit_or]
  cases decide (i < 8) <;> simp

theorem lor_div256 (x y : Nat) : (x ||| y) / 256 = x / 256 ||| y / 256 := by
  have h : ∀ z : Nat, z / 256 = z / 2 / 2 / 2 / 2 / 2 / 2 / 2 / 2 := by
    intro z; omega
  rw [h, h x, h y]
  simp only [Nat.or_div_two]

theorem lor_cons (a e X Y : Nat) (ha : a < 256) (he : e < 256) :
    (a + 256 * X) ||| (e + 256 * Y) = (a ||| e) + 256 * (X ||| Y) := by
  have hm := lor_mod256 (a + 256 * X) (e + 256 * Y)
  have hd := lor_div256 (a + 256 * X) (e + 256 * Y)
  have h1 : (a + 256 * X) % 256 = a := by omega
  have h2 : (e + 256 * Y) % 256 = e := by omega
  have h3 : (a + 256 * X) / 256 = X := by omega
  have h4 : (e + 256 * Y) / 256 = Y := by omega
  rw [h1, h2] at hm
  rw [h3, h4] at hd
  have := Nat.mod_add_div ((a + 256 * X) ||| (e + 256 * Y)) 256
  rw [hm, hd] at this
  exact this.symm

theorem lor_lt256 (a e : Nat) (ha : a < 256) (he : e < 256) : a ||| e < 256 := by
  have h : (256 : Nat) = 2 ^ 8 := by norm_num
  rw [h] at *
  exact Nat.or_lt_two_pow ha he

theorem lor32_fin : ∀ a : Fin 256,
    a.val ||| 32 = if a.val / 32 % 2 = 1 then a.val else a.val + 32 := by
  set_option maxRecDepth 100000 in decide

theorem lor32_eq (a : Nat) (ha : a < 256) : a ||| 32 = if a / 32 % 2 = 1 then a else a + 32 :=
  lor32_fin ⟨a, ha⟩

theorem lor32_eq_iff (a c : Nat) (ha : a < 256) (hc : c / 32 % 2 = 1) :
    a ||| 32 = c ↔ (a = c ∨ a + 32 = c) := by
  rw [lor32_eq a ha]
  split <;> omega

/-! ## The words of the table -/

@[simp] theorem tbl16_0 : rd16 kValidExtensions 0 = word16 102 108 := by decide
@[simp] theorem tbl16_1 : rd16 kValidExtensions 1 = word16 116 115 := by decide
@[simp] theorem tbl32_1 : rd32 kValidExtensions 1 = word32 111 116 97 32 := by decide
@[simp] theorem tbl32_2 : rd32 kValidExtensions 2 = word32 114 116 120 32 := by decide
@[simp] theorem tbl32_3 : rd32 kValidExtensions 3 = word32 120 109 102 32 := by decide
@[simp] theorem tbl32_4 : rd32 kValidExtensions 4 = word32 105 109 121 32 := by decide
@[simp] theorem tbl32_5 : rd32 kValidExtensions 5 = word32 115 109 102 32 := by decide
@[simp] theorem tbl32_6 : rd32 kValidExtensions 6 = word32 109 105 100 32 := by decide
@[simp] theorem tbl32_7 : rd32 kValidExtensions 7 = word32 97 119 98 32 := by decide
@[simp] theorem tbl32_8 : rd32 kValidExtensions 8 = word32 109 112 103 32 := by decide
@[simp] theorem tbl32_9 : rd32 kValidExtensions 9 = word32 97 118 105 32 := by decide
@[simp] theorem tbl32_10 : rd32 kValidExtensions 10 = word32 109 107 97 32 := by decide
@[simp] theorem tbl32_11 : rd32 kValidExtensions 11 = word32 109 107 118 32 := by decide
@[simp] theorem tbl32_12 : rd32 kValidExtensions 12 = word32 97 109 114 32 := by decide
@[simp] theorem tbl32_13 : rd32 kValidExtensions 13 = word32 119 97 118 32 := by decide
@[simp] theorem tbl32_14 : rd32 kValidExtensions 14 = word32 97 97 99 32 := by decide
@[simp] theorem tbl32_15 : rd32 kValidExtensions 15 = word32 119 109 97 32 := by decide
@[simp] theorem tbl32_16 : rd32 kValidExtensions 16 = word32 111 103 103 32 := by decide
@[simp] theorem tbl32_17 : rd32 kValidExtensions 17 = word32 0 32 0 32 := by decide
@[simp] theorem tbl32_18 : rd32 kValidExtensions 18 = word32 51 103 50 32 := by decide
@[simp] theorem tbl32_19 : rd32 kValidExtensions 19 = word32 0 32 32 32 := by decide
@[simp] theorem tbl32_20 : rd32 kValidExtensions 20 = word32 51 103 112 32 := by decide
@[simp] theorem tbl32_21 : rd32 kValidExtensions 21 = word32 32 0 32 32 := by decide
@[simp] theorem tbl32_22 : rd32 kValidExtensions 22 = word32 109 52 97 32 := by decide
@[simp] theorem tbl32_23 : rd32 kValidExtensions 23 = word32 32 32 0 32 := by decide
@[simp] theorem tbl32_24 : rd32 kValidExtensions 24 = word32 109 112 52 32 := by decide
@[simp] theorem tbl32_25 : rd32 kValidExtensions 25 = word32 32 32 0 32 := by decide
@[simp] theorem tbl32_26 : rd32 kValidExtensions 26 = word32 109 112 51 32 := by decide
@[simp] theorem tbl32_27 : rd32 kValidExtensions 27 = word32 109 105 100 105 := by decide
@[simp] theorem tbl32_28 : rd32 kValidExtensions 28 = word32 109 120 109 102 := by decide
@[simp] theorem tbl32_29 : rd32 kValidExtensions 29 = word32 109 112 103 97 := by decide
@[simp] theorem tbl32_30 : rd32 kValidExtensions 30 = word32 119 101 98 109 := by decide
@[simp] theorem tbl32_31 : rd32 kValidExtensions 31 = word32 109 112 101 103 := by decide
@[simp] theorem tbl32_32 : rd32 kValidExtensions 32 = word32 102 108 97 99 := by decide
@[simp] theorem tbl32_33 : rd32 kValidExtensions 33 = word32 0 32 32 32 := by decide
@[simp] theorem tbl32_34 : rd32 kValidExtensions 34 = word32 51 103 112 112 := by decide
@[simp] theorem tbl32_36 : rd32 kValidExtensions 36 = word32 114 116 116 116 := by decide

/-! ## Words of bytes under `|` and `==` -/

theorem word32_lor (a b c d e f g h : Nat) (ha : a < 256) (hb : b < 256) (hc : c < 256)
    (he : e < 256) (hf : f < 256) (hg : g < 256) :
    word32 a b c d ||| word32 e f g h = word32 (a ||| e) (b ||| f) (c ||| g) (d ||| h) := by
  have h1 : ∀ w x y z : Nat, word32 w x y z = w + 256 * (x + 256 * (y + 256 * z)) := by
    intro w x y z; unfold word32; omega
  rw [h1, h1, h1, lor_cons _ _ _ _ ha he, lor_cons _ _ _ _ hb hf, lor_cons _ _ _ _ hc hg]

theorem word16_lor (a b e f : Nat) (ha : a < 256) (he : e < 256) :
    word16 a b ||| word16 e f = word16 (a ||| e) (b ||| f) := by
  unfold word16
  exact lor_cons _ _ _ _ ha he

theorem word32_inj (a b c d e f g h : Nat) (ha : a < 256) (hb : b < 256) (hc : c < 256)
    (he : e < 256) (hf : f < 256) (hg : g < 256) :
    word32 a b c d = word32 e f g h ↔ a = e ∧ b = f ∧ c = g ∧ d = h := by
  unfold word32; omega

theorem word16_inj (a b e f : Nat) (ha : a < 256) (he : e < 256) :
    word16 a b = word16 e f ↔ a = e ∧ b = f := by
  unfold word16; omega

theorem lit_2020 : (0x2020 : Nat) = word16 32 32 := by decide

theorem lit_20202020 : (0x20202020 : Nat) = word32 32 32 32 32 := by decide

/-- A masked comparison of the table is a bytewise comparison. -/
theorem masked_eq_iff (a b c d m0 m1 m2 m3 v0 v1 v2 v3 : Nat)
    (ha : a < 256) (hb : b < 256) (hc : c < 256)
    (h0 : m0 < 256) (h1 : m1 < 256) (h2 : m2 < 256)
    (k0 : v0 < 256) (k1 : v1 < 256) (k2 : v2 < 256) :
    (word32 a b c d ||| word32 m0 m1 m2 m3 = word32 v0 v1 v2 v3) ↔
      (a ||| m0 = v0 ∧ b ||| m1 = v1 ∧ c ||| m2 = v2 ∧ d ||| m3 = v3) := by
  rw [word32_lor a b c d m0 m1 m2 m3 ha hb hc h0 h1 h2]
  exact word32_inj _ _ _ _ _ _ _ _ (lor_lt256 _ _ ha h0) (lor_lt256 _ _ hb h1)
    (lor_lt256 _ _ hc h2) k0 k1 k2

/-- The comparison after `extexpr |= 0x20202020` is a bytewise comparison. -/
theorem lowered_eq_iff (a b c d v0 v1 v2 v3 : Nat)
    (ha : a < 256) (hb : b < 256) (hc : c < 256)
    (k0 : v0 < 256) (k1 : v1 < 256) (k2 : v2 < 256) :
    (word32 a b c d ||| 0x20202020 = word32 v0 v1 v2 v3) ↔
      (a ||| 32 = v0 ∧ b ||| 32 = v1 ∧ c ||| 32 = v2 ∧ d ||| 32 = v3) := by
  rw [lit_20202020]
  exact masked_eq_iff a b c d 32 32 32 32 v0 v1 v2 v3 ha hb hc (by decide) (by decide)
    (by decide) k0 k1 k2

theorem lowered16_eq_iff (a b v0 v1 : Nat) (ha : a < 256) (k0 : v0 < 256) :
    (word16 a b ||| 0x2020 = word16 v0 v1) ↔ (a ||| 32 = v0 ∧ b ||| 32 = v1) := by
  rw [lit_2020, word16_lor a b 32 32 ha (by decide)]
  exact word16_inj _ _ _ _ (lor_lt256 _ _ ha (by decide)) k0

/-- For a lower-case letter `c`, `x | 0x20 == c` says that `x` is `c` in
either case. -/
theorem lor32_letter (a c : Nat) (ha : a < 256) (h1 : 97 ≤ c) (h2 : c ≤ 122) :
    a ||| 32 = c ↔ asciiLower a = c := by
  rw [lor32_eq_iff a c ha (by omega)]
  unfold asciiLower
  split <;> omega

theorem asciiLower_nonletter (a c : Nat) (h : c < 65) : asciiLower a = c ↔ a = c := by
  unfold asciiLower
  split <;> omega

theorem rd32_zero (a b c d : Nat) (rest : List Nat) :
    rd32 (a :: b :: c :: d :: rest) 0 = word32 a b c d := rfl

theorem rd16_zero (a b : Nat) (rest : List Nat) :
    rd16 (a :: b :: rest) 0 = word16 a b := rfl

theorem byteAt_four (a b c d e : Nat) (rest : List Nat) :
    byteAt (a :: b :: c :: d :: e :: rest) 4 = e := rfl

theorem specMIDI_bytes : specMIDI.map bytesOf =
    [[111, 116, 97], [114, 116, 120], [120, 109, 102], [105, 109, 121], [115, 109, 102],
     [109, 105, 100], [109, 105, 100, 105], [109, 120, 109, 102], [114, 116, 116, 116, 108]] := by
  decide

theorem specOther_bytes : specOther.map bytesOf =
    [[102, 108], [116, 115], [97, 119, 98], [109, 112, 103], [97, 118, 105], [109, 107, 97],
     [109, 107, 118], [97, 109, 114], [119, 97, 118], [97, 97, 99], [119, 109, 97],
     [111, 103, 103], [51, 103, 50], [51, 103, 112], [109, 52, 97], [109, 112, 52],
     [109, 112, 51], [109, 112, 103, 97], [119, 101, 98, 109], [109, 112, 101, 103],
     [102, 108, 97, 99], [51, 103, 112, 112], [51, 103, 112, 112, 50]] := by
  decide

/-! ## The table groups, byte by byte -/

theorem grp2_bytes : grp2 = [[116, 115], [102, 108]] := by decide

theorem grp3N_bytes : grp3N =
    [[109, 112, 51], [109, 112, 52], [109, 52, 97], [51, 103, 112], [51, 103, 50]] := by decide

theorem grp3A_bytes : grp3A =
    [[111, 103, 103], [119, 109, 97], [97, 97, 99], [119, 97, 118], [97, 109, 114],
     [109, 107, 118], [109, 107, 97], [97, 118, 105], [109, 112, 103], [97, 119, 98]] := by
  decide

theorem grp3M_bytes : grp3M =
    [[109, 105, 100], [115, 109, 102], [105, 109, 121], [120, 109, 102], [114, 116, 120],
     [111, 116, 97]] := by decide

theorem grp4N_bytes : grp4N = [[51, 103, 112, 112]] := by decide

theorem grp4A_bytes : grp4A =
    [[102, 108, 97, 99], [109, 112, 101, 103], [119, 101, 98, 109], [109, 112, 103, 97]] := by
  decide

theorem grp4M_bytes : grp4M = [[109, 120, 109, 102], [109, 105, 100, 105]] := by decide

/-! ## What the code computes, length by length -/

theorem view2 (a b : Nat) (rest : List Nat) (ha : a < 256) (hb : b < 256) :
    FileHasAcceptableExtension (a :: b :: rest) 2 =
      if [a, b].map asciiLower ∈ grp2 then 1 else -1 := by
  simp only [grp2_bytes]
  simp [FileHasAcceptableExtension, FileHasAcceptableExtensionOn, num2, scan16, rd16_zero,
    lowered16_eq_iff, ha, hb, lor32_letter]

theorem view3 (a b c : Nat) (rest : List Nat) (ha : a < 256) (hb : b < 256) (hc : c < 256) :
    FileHasAcceptableExtension (a :: b :: c :: 0 :: rest) 3 =
      if [a, b, c].map asciiLower ∈ grp3N then 1
      else if [a, b, c].map asciiLower ∈ grp3A then 1
      else if [a, b, c].map asciiLower ∈ grp3M then 0 else -1 := by
  simp only [grp3N_bytes, grp3A_bytes, grp3M_bytes]
  simp [FileHasAcceptableExtension, FileHasAcceptableExtensionOn, size2, size3, size4,
    num2, num3MIDI, num3NonMIDIA, num3NonMIDIN, scanMasked, scan32, rd32_zero,
    masked_eq_iff, lowered_eq_iff, ha, hb, hc, lor32_letter, asciiLower_nonletter]

theorem view4 (a b c d : Nat) (rest : List Nat) (ha : a < 256) (hb : b < 256) (hc : c < 256)
    (hd : d < 256) :
    FileHasAcceptableExtension (a :: b :: c :: d :: rest) 4 =
      if [a, b, c, d].map asciiLower ∈ grp4N then 1
      else if [a, b, c, d].map asciiLower ∈ grp4A then 1
      else if [a, b, c, d].map asciiLower ∈ grp4M then 0 else -1 := by
  simp only [grp4N_bytes, grp4A_bytes, grp4M_bytes]
  simp [FileHasAcceptableExtension, FileHasAcceptableExtensionOn, size2, size3, size4,
    num2, num3MIDI, num3NonMIDIA, num3NonMIDIN, num4MIDI, num4NonMIDIA, num4NonMIDIN,
    scanMasked, scan32, rd32_zero,
    masked_eq_iff, lowered_eq_iff, ha, hb, hc, hd, lor32_letter, asciiLower_nonletter]

theorem view5 (a b c d e : Nat) (rest : List Nat) (ha : a < 256) (hb : b < 256)
    (hc : c < 256) (hd : d < 256) (he : e < 256) :
    FileHasAcceptableExtension (a :: b :: c :: d :: e :: rest) 5 =
      if [a, b, c, d, e].map asciiLower = bytesOf "3gpp2" then 1
      else if [a, b, c, d, e].map asciiLower = bytesOf "rtttl" then 0 else -1 := by
  have h1 : bytesOf "3gpp2" = [51, 103, 112, 112, 50] := by decide
  have h2 : bytesOf "rtttl" = [114, 116, 116, 116, 108] := by decide
  simp only [h1, h2]
  simp [FileHasAcceptableExtension, FileHasAcceptableExtensionOn, size2, size3, size4,
    num2, num3MIDI, num3NonMIDIA, num3NonMIDIN, num4MIDI, num4NonMIDIA, num4NonMIDIN,
    rd32_zero, byteAt_four,
    masked_eq_iff, lowered_eq_iff, ha, hb, hc, hd, he, lor32_letter, asciiLower_nonletter,
    and_assoc]

/-! ## The table groups against the documented sets -/

theorem mem_iff_of_length (L G : List (List Nat)) (n : Nat)
    (h1 : ∀ y ∈ L, y.length = n → y ∈ G) (h2 : ∀ y ∈ G, y ∈ L)
    (x : List Nat) (hx : x.length = n) : x ∈ L ↔ x ∈ G :=
  ⟨fun h => h1 x h hx, fun h => h2 x h⟩

theorem specMIDI_length : ∀ y ∈ specMIDI.map bytesOf, 2 ≤ y.length ∧ y.length ≤ 5 := by
  decide

theorem specOther_length : ∀ y ∈ specOther.map bytesOf, 2 ≤ y.length ∧ y.length ≤ 5 := by
  decide

theorem spec_disjoint : ∀ y ∈ specMIDI.map bytesOf, y ∉ specOther.map bytesOf := by
  decide

/-- The result of the three-group search against the two documented sets. -/
theorem settle (N Al M Ms Os : Prop) [Decidable N] [Decidable Al] [Decidable M]
    [Decidable Ms] [Decidable Os] (hM : Ms ↔ M) (hO : Os ↔ N ∨ Al) (hd : Ms → ¬ Os)
    (r : Int) (hr : r = if N then 1 else if Al then 1 else if M then 0 else -1) :
    (r = if Ms then 0 else if Os then 1 else -1) ∧ (r = 0 ↔ Ms) ∧ (r = 1 ↔ Os) ∧
      (¬ Ms → ¬ Os → r = -1) := by
  subst hr
  by_cases h1 : N <;> by_cases h2 : Al <;> by_cases h3 : M <;> simp_all

theorem out_of_range (tbl extension : List Nat) (len : Int) (h : len < 2 ∨ len > 5) :
    FileHasAcceptableExtensionOn tbl extension len = -1 := by
  simp [FileHasAcceptableExtensionOn, h]

theorem spec_not_mem_of_length (x : List Nat) (h : x.length < 2 ∨ 5 < x.length) :
    x ∉ specMIDI.map bytesOf ∧ x ∉ specOther.map bytesOf := by
  constructor
  · intro hx
    have := specMIDI_length x hx
    omega
  · intro hx
    have := specOther_length x hx
    omega

theorem classify_out_of_range (ext : List Nat) (h : ext.length < 2 ∨ 5 < ext.length) :
    (FileHasAcceptableExtension (cstr ext) ext.length = classifyByMembership ext) ∧
    (FileHasAcceptableExtension (cstr ext) ext.length = 0 ↔
      ext.map asciiLower ∈ specMIDI.map bytesOf) ∧
    (FileHasAcceptableExtension (cstr ext) ext.length = 1 ↔
      ext.map asciiLower ∈ specOther.map bytesOf) ∧
    (ext.map asciiLower ∉ specMIDI.map bytesOf → ext.map asciiLower ∉ specOther.map bytesOf →
      FileHasAcceptableExtension (cstr ext) ext.length = -1) := by
  have hn := spec_not_mem_of_length (ext.map asciiLower) (by simpa using h)
  have hr : FileHasAcceptableExtension (cstr ext) ext.length = -1 :=
    out_of_range _ _ _ (by omega)
  unfold classifyByMembership
  simp [hr, hn.1, hn.2]

theorem classify_spec (ext : List Nat) (hb : ∀ b ∈ ext, b < 256) :
    (FileHasAcceptableExtension (cstr ext) ext.length = classifyByMembership ext) ∧
    (FileHasAcceptableExtension (cstr ext) ext.length = 0 ↔
      ext.map asciiLower ∈ specMIDI.map bytesOf) ∧
    (FileHasAcceptableExtension (cstr ext) ext.length = 1 ↔
      ext.map asciiLower ∈ specOther.map bytesOf) ∧
    (ext.map asciiLower ∉ specMIDI.map bytesOf → ext.map asciiLower ∉ specOther.map bytesOf →
      FileHasAcceptableExtension (cstr ext) ext.length = -1) := by
  have hdis := spec_disjoint (ext.map asciiLower)
  match ext, hb, hdis with
  | [], _, _ => exact classify_out_of_range _ (by simp)
  | [a], _, _ => exact classify_out_of_range _ (by simp)
  | [a, b], hb, hdis =>
    have ha := hb a (by simp)
    have hb := hb b (by simp)
    unfold classifyByMembership
    refine settle False ([a, b].map asciiLower ∈ grp2) False _ _ ?_ ?_ hdis _ ?_
    · exact (mem_iff_of_length (specMIDI.map bytesOf) [] 2 (by decide) (by decide)
        ([a, b].map asciiLower) rfl).trans (by simp)
    · exact (mem_iff_of_length (specOther.map bytesOf) grp2 2 (by decide) (by decide)
        ([a, b].map asciiLower) rfl).trans (by simp)
    · simpa using view2 a b [0] ha hb
  | [a, b, c], hb, hdis =>
    have ha := hb a (by simp)
    have hc := hb c (by simp)
    have hb := hb b (by simp)
    unfold classifyByMembership
    refine settle _ _ _ _ _ ?_ ?_ hdis _ (view3 a b c [] ha hb hc)
    · exact mem_iff_of_length _ grp3M 3 (by decide) (by decide) _ rfl
    · exact (mem_iff_of_length (specOther.map bytesOf) (grp3N ++ grp3A) 3 (by decide) (by decide)
        ([a, b, c].map asciiLower) rfl).trans List.mem_append
  | [a, b, c, d], hb, hdis =>
    have ha := hb a (by simp)
    have hc := hb c (by simp)
    have hd := hb d (by simp)
    have hb := hb b (by simp)
    unfold classifyByMembership
    refine settle _ _ _ _ _ ?_ ?_ hdis _ (view4 a b c d [0] ha hb hc hd)
    · exact mem_iff_of_length _ grp4M 4 (by decide) (by decide) _ rfl
    · exact (mem_iff_of_length (specOther.map bytesOf) (grp4N ++ grp4A) 4 (by decide) (by decide)
        ([a, b, c, d].map asciiLower) rfl).trans List.mem_append
  | [a, b, c, d, e], hb, hdis =>
    have ha := hb a (by simp)
    have hc := hb c (by simp)
    have hd := hb d (by simp)
    have he := hb e (by simp)
    have hb := hb b (by simp)
    unfold classifyByMembership
    refine settle False ([a, b, c, d, e].map asciiLower = bytesOf "3gpp2")
      ([a, b, c, d, e].map asciiLower = bytesOf "rtttl") _ _ ?_ ?_ hdis _ ?_
    · exact (mem_iff_of_length (specMIDI.map bytesOf) [bytesOf "rtttl"] 5 (by decide) (by decide)
        ([a, b, c, d, e].map asciiLower) rfl).trans (by simp)
    · exact (mem_iff_of_length (specOther.map bytesOf) [bytesOf "3gpp2"] 5 (by decide) (by decide)
        ([a, b, c, d, e].map asciiLower) rfl).trans (by simp)
    · simpa using view5 a b c d e [0] ha hb hc hd he
  | a :: b :: c :: d :: e :: f :: rest, _, _ =>
    exact classify_out_of_range _ (by simp)

/-! ## Case variants -/

theorem caseVariant_lower : ∀ (s ext : List Nat), caseVariant s ext = true →
    (∀ c ∈ s, (c < 65 ∨ (97 ≤ c ∧ c ≤ 122)) ∧ c < 256) →
    ext.map asciiLower = s ∧ ∀ x ∈ ext, x < 256
  | [], [], _, _ => by simp
  | [], _ :: _, h, _ => by simp [caseVariant] at h
  | _ :: _, [], h, _ => by simp [caseVariant] at h
  | c :: s, x :: ext, h, hs => by
    simp only [caseVariant, caseVariantByte, Bool.and_eq_true, Bool.or_eq_true, beq_iff_eq,
      decide_eq_true_eq] at h
    have ih := caseVariant_lower s ext h.2 (fun c hc => hs c (List.mem_cons_of_mem _ hc))
    have hc := hs c (List.mem_cons_self _ _)
    have hx : asciiLower x = c ∧ x < 256 := by
      unfold asciiLower
      split <;> omega
    refine ⟨by simp [hx.1, ih.1], ?_⟩
    intro y hy
    rcases List.mem_cons.1 hy with rfl | hy
    · exact hx.2
    · exact ih.2 y hy

theorem docMIDI_facts : ∀ s ∈ docMIDI,
    (∀ c ∈ bytesOf s, (c < 65 ∨ (97 ≤ c ∧ c ≤ 122)) ∧ c < 256) ∧
      bytesOf s ∈ specMIDI.map bytesOf := by
  decide

theorem docOther_facts : ∀ s ∈ docOther,
    (∀ c ∈ bytesOf s, (c < 65 ∨ (97 ≤ c ∧ c ≤ 122)) ∧ c < 256) ∧
      bytesOf s ∈ specOther.map bytesOf := by
  decide

/-! ## The classifier: claims -/

/-- C1: `FileHasAcceptableExtension` is a case-insensitive set-membership test.
For every extension string `ext` (its memory is `cstr ext`, its bytes followed
by the NUL) with `len` its length, the result equals `classifyByMembership`:
it is 0 iff the ASCII-lowercased `ext` is one of the MIDI extensions, 1 iff it
is one of the other recognized extensions, and -1 for every other string. -/
theorem C1_classifier_is_membership_test (ext : List Nat) (hb : ∀ b ∈ ext, b < 256) :
    (FileHasAcceptableExtension (cstr ext) ext.length = classifyByMembership ext) ∧
    (FileHasAcceptableExtension (cstr ext) ext.length = 0 ↔
      ext.map asciiLower ∈ specMIDI.map bytesOf) ∧
    (FileHasAcceptableExtension (cstr ext) ext.length = 1 ↔
      ext.map asciiLower ∈ specOther.map bytesOf) ∧
    (ext.map asciiLower ∉ specMIDI.map bytesOf → ext.map asciiLower ∉ specOther.map bytesOf →
      FileHasAcceptableExtension (cstr ext) ext.length = -1) :=
  classify_spec ext hb

theorem C1_classifier_is_membership_test_witness :
    (∀ b ∈ bytesOf "Mp3", b < 256) ∧
    (FileHasAcceptableExtension (cstr (bytesOf "Mp3")) (bytesOf "Mp3").length =
      classifyByMembership (bytesOf "Mp3")) ∧
    (FileHasAcceptableExtension (cstr (bytesOf "Mp3")) (bytesOf "Mp3").length = 0 ↔
      (bytesOf "Mp3").map asciiLower ∈ specMIDI.map bytesOf) ∧
    (FileHasAcceptableExtension (cstr (bytesOf "Mp3")) (bytesOf "Mp3").length = 1 ↔
      (bytesOf "Mp3").map asciiLower ∈ specOther.map bytesOf) ∧
    ((bytesOf "Mp3").map asciiLower ∉ specMIDI.map bytesOf →
      (bytesOf "Mp3").map asciiLower ∉ specOther.map bytesOf →
      FileHasAcceptableExtension (cstr (bytesOf "Mp3")) (bytesOf "Mp3").length = -1) :=
  ⟨by decide, C1_classifier_is_membership_test (bytesOf "Mp3") (by decide)⟩

/-- C2: for every extension `s` of the documented known set and every
upper/lower-case variant `ext` of it, `FileHasAcceptableExtension` returns the
documented class: 0 for the documented MIDI extensions, 1 for the documented
other-recognized extensions. -/
theorem C2_documented_extensions_any_case (s : String) (ext : List Nat)
    (hv : caseVariant (bytesOf s) ext = true) :
    (s ∈ docMIDI → FileHasAcceptableExtension (cstr ext) ext.length = 0) ∧
    (s ∈ docOther → FileHasAcceptableExtension (cstr ext) ext.length = 1) := by
  constructor
  · intro hs
    have hf := docMIDI_facts s hs
    have hl := caseVariant_lower _ _ hv hf.1
    exact (classify_spec ext hl.2).2.1.2 (by rw [hl.1]; exact hf.2)
  · intro hs
    have hf := docOther_facts s hs
    have hl := caseVariant_lower _ _ hv hf.1
    exact (classify_spec ext hl.2).2.2.1.2 (by rw [hl.1]; exact hf.2)

theorem C2_documented_extensions_any_case_witness :
    caseVariant (bytesOf "3gpp2") (bytesOf "3GpP2") = true ∧
    (("3gpp2" ∈ docMIDI →
        FileHasAcceptableExtension (cstr (bytesOf "3GpP2")) (bytesOf "3GpP2").length = 0) ∧
      ("3gpp2" ∈ docOther →
        FileHasAcceptableExtension (cstr (bytesOf "3GpP2")) (bytesOf "3GpP2").length = 1)) :=
  ⟨by decide, C2_documented_extensions_any_case "3gpp2" (bytesOf "3GpP2") (by decide)⟩

/-- C3: for every extension and every `len` with `len < 2` or `len > 5`,
`FileHasAcceptableExtension` returns -1 whatever the bytes of the extension
are, and whatever the table holds (the table is not consulted). -/
theorem C3_length_out_of_range (extension : List Nat) (len : Int) (h : len < 2 ∨ len > 5) :
    FileHasAcceptableExtension extension len = -1 ∧
    ∀ tbl : List Nat, FileHasAcceptableExtensionOn tbl extension len = -1 :=
  ⟨out_of_range _ _ _ h, fun tbl => out_of_range tbl _ _ h⟩

theorem C3_length_out_of_range_witness :
    ((6 : Int) < 2 ∨ (6 : Int) > 5) ∧
    (FileHasAcceptableExtension (cstr (bytesOf "mp3mp3")) 6 = -1 ∧
      ∀ tbl : List Nat, FileHasAcceptableExtensionOn tbl (cstr (bytesOf "mp3mp3")) 6 = -1) :=
  ⟨by decide, C3_length_out_of_range (cstr (bytesOf "mp3mp3")) 6 (by decide)⟩

theorem asciiLower_letter (x c : Nat) (h1 : 97 ≤ c) (h2 : c ≤ 122) :
    asciiLower x = c ↔ (x = c ∨ x + 32 = c) := by
  unfold asciiLower
  split <;> omega

/-- C10: for every 5-byte extension `a b c d e`, the result is 1 iff `a` is
the digit 3, `b` is g or G, `c` and `d` are each p or P and `e` is exactly the
digit 2; it is 0 iff `a b c d` equal "rttt" up to ASCII letter case and `e` is
l or L; in every other case it is -1. -/
theorem C10_five_byte_branch (a b c d e : Nat) (rest : List Nat)
    (ha : a < 256) (hb : b < 256) (hc : c < 256) (hd : d < 256) (he : e < 256) :
    (FileHasAcceptableExtension (a :: b :: c :: d :: e :: rest) 5 = 1 ↔
      a = Char.toNat '3' ∧ (b = Char.toNat 'g' ∨ b = Char.toNat 'G') ∧
      (c = Char.toNat 'p' ∨ c = Char.toNat 'P') ∧ (d = Char.toNat 'p' ∨ d = Char.toNat 'P') ∧
      e = Char.toNat '2') ∧
    (FileHasAcceptableExtension (a :: b :: c :: d :: e :: rest) 5 = 0 ↔
      (a = Char.toNat 'r' ∨ a = Char.toNat 'R') ∧ (b = Char.toNat 't' ∨ b = Char.toNat 'T') ∧
      (c = Char.toNat 't' ∨ c = Char.toNat 'T') ∧ (d = Char.toNat 't' ∨ d = Char.toNat 'T') ∧
      (e = Char.toNat 'l' ∨ e = Char.toNat 'L')) ∧
    (¬ (a = Char.toNat '3' ∧ (b = Char.toNat 'g' ∨ b = Char.toNat 'G') ∧
        (c = Char.toNat 'p' ∨ c = Char.toNat 'P') ∧ (d = Char.toNat 'p' ∨ d = Char.toNat 'P') ∧
        e = Char.toNat '2') →
      ¬ ((a = Char.toNat 'r' ∨ a = Char.toNat 'R') ∧ (b = Char.toNat 't' ∨ b = Char.toNat 'T') ∧
        (c = Char.toNat 't' ∨ c = Char.toNat 'T') ∧ (d = Char.toNat 't' ∨ d = Char.toNat 'T') ∧
        (e = Char.toNat 'l' ∨ e = Char.toNat 'L')) →
      FileHasAcceptableExtension (a :: b :: c :: d :: e :: rest) 5 = -1) := by
  have h1 : bytesOf "3gpp2" = [51, 103, 112, 112, 50] := by decide
  have h2 : bytesOf "rtttl" = [114, 116, 116, 116, 108] := by decide
  have k1 : ([a, b, c, d, e].map asciiLower = bytesOf "3gpp2") ↔
      (a = 51 ∧ (b = 103 ∨ b = 71) ∧ (c = 112 ∨ c = 80) ∧ (d = 112 ∨ d = 80) ∧ e = 50) := by
    rw [h1]
    simp only [List.map_cons, List.map_nil, List.cons.injEq, and_true,
      asciiLower_nonletter _ 51 (by decide), asciiLower_nonletter _ 50 (by decide),
      asciiLower_letter _ 103 (by decide) (by decide),
      asciiLower_letter _ 112 (by decide) (by decide)]
    omega
  have k2 : ([a, b, c, d, e].map asciiLower = bytesOf "rtttl") ↔
      ((a = 114 ∨ a = 82) ∧ (b = 116 ∨ b = 84) ∧ (c = 116 ∨ c = 84) ∧ (d = 116 ∨ d = 84) ∧
        (e = 108 ∨ e = 76)) := by
    rw [h2]
    simp only [List.map_cons, List.map_nil, List.cons.injEq, and_true,
      asciiLower_letter _ 114 (by decide) (by decide),
      asciiLower_letter _ 116 (by decide) (by decide),
      asciiLower_letter _ 108 (by decide) (by decide)]
    omega
  have hc3 : Char.toNat '3' = 51 := rfl
  have hc2 : Char.toNat '2' = 50 := rfl
  have hg : Char.toNat 'g' = 103 := rfl
  have hG : Char.toNat 'G' = 71 := rfl
  have hp : Char.toNat 'p' = 112 := rfl
  have hP : Char.toNat 'P' = 80 := rfl
  have hr : Char.toNat 'r' = 114 := rfl
  have hR : Char.toNat 'R' = 82 := rfl
  have ht : Char.toNat 't' = 116 := rfl
  have hT : Char.toNat 'T' = 84 := rfl
  have hl : Char.toNat 'l' = 108 := rfl
  have hL : Char.toNat 'L' = 76 := rfl
  rw [hc3, hc2, hg, hG, hp, hP, hr, hR, ht, hT, hl, hL]
  have hx : [a, b, c, d, e].map asciiLower = bytesOf "rtttl" →
      ¬ [a, b, c, d, e].map asciiLower = bytesOf "3gpp2" := by
    intro h h'
    rw [h, h1, h2] at h'
    simp at h'
  have hs := settle False ([a, b, c, d, e].map asciiLower = bytesOf "3gpp2")
    ([a, b, c, d, e].map asciiLower = bytesOf "rtttl") _ _ k2.symm
    (k1.symm.trans (by simp)) (fun h => by rw [← k1]; exact hx (k2.2 h)) _
    (by simpa using view5 a b c d e rest ha hb hc hd he)
  exact ⟨hs.2.2.1, hs.2.1, fun n1 n2 => hs.2.2.2 n2 n1⟩

theorem C10_five_byte_branch_witness :
    FileHasAcceptableExtension (bytesOf "3GPp2" ++ [0]) 5 = 1 ↔
      Char.toNat '3' = Char.toNat '3' ∧ (Char.toNat 'G' = Char.toNat 'g' ∨ Char.toNat 'G' = Char.toNat 'G') ∧
      (Char.toNat 'P' = Char.toNat 'p' ∨ Char.toNat 'P' = Char.toNat 'P') ∧
      (Char.toNat 'p' = Char.toNat 'p' ∨ Char.toNat 'p' = Char.toNat 'P') ∧
      Char.toNat '2' = Char.toNat '2' :=
  (C10_five_byte_branch (Char.toNat '3') (Char.toNat 'G') (Char.toNat 'P') (Char.toNat 'p')
    (Char.toNat '2') [0] (by decide) (by decide) (by decide) (by decide) (by decide)).1

/-! ## Finding the extension -/

theorem byteAt_ne_of_not_mem (l : List Nat) (i v : Nat) (hv : v ≠ 0) (h : v ∉ l) :
    byteAt l i ≠ v := by
  unfold byteAt
  intro he
  by_cases hi : i < l.length
  · rw [List.getD_eq_getElem _ _ hi] at he
    exact h (he ▸ List.getElem_mem hi)
  · rw [List.getD_eq_default _ _ (by omega)] at he
    exact hv he.symm

theorem findExtOffset_skip (mem : List Nat) (k : Nat) :
    ∀ n, k ≤ n → (∀ i, k ≤ i → i < n → byteAt mem i ≠ 0x2e) →
      findExtOffset mem n = findExtOffset mem k := by
  intro n
  induction n with
  | zero =>
    intro hk _
    have : k = 0 := by omega
    rw [this]
  | succ n ih =>
    intro hk h
    by_cases hkn : k = n + 1
    · rw [hkn]
    · have hn := h n (by omega) (by omega)
      simp only [findExtOffset, hn, ne_eq, not_false_eq_true, if_true]
      exact ih (by omega) (fun i h1 h2 => h i h1 (by omega))

theorem findExtOffset_no_dot (path : List Nat) (h : 0x2e ∉ path) :
    findExtOffset (cstr path) (path.length + 1) = -1 := by
  rw [findExtOffset_skip (cstr path) 0 _ (by omega)]
  · rfl
  · intro i _ _
    apply byteAt_ne_of_not_mem _ _ _ (by decide)
    simpa [cstr] using h

theorem byteAt_append_right (l1 l2 : List Nat) (j : Nat) :
    byteAt (l1 ++ l2) (l1.length + j) = byteAt l2 j := by
  unfold byteAt
  simp [List.getD_eq_getElem?_getD, List.getElem?_append_right]

theorem findExtOffset_dot (stem ext : List Nat) (h : 0x2e ∉ ext) :
    findExtOffset (cstr (stem ++ 0x2e :: ext)) ((stem ++ 0x2e :: ext).length + 1) =
      stem.length := by
  rw [findExtOffset_skip _ (stem.length + 1) _ (by simp)]
  · have h0 : byteAt (cstr (stem ++ 0x2e :: ext)) stem.length = 0x2e := by
      have := byteAt_append_right stem (0x2e :: ext ++ [0]) 0
      simpa [cstr, byteAt] using this
    simp [findExtOffset, h0]
  · intro i h1 _
    have hi : i = (stem ++ [0x2e]).length + (i - (stem.length + 1)) := by simp; omega
    have hm : cstr (stem ++ 0x2e :: ext) = (stem ++ [0x2e]) ++ (ext ++ [0]) := by simp [cstr]
    rw [hm, hi, byteAt_append_right]
    apply byteAt_ne_of_not_mem _ _ _ (by decide)
    simpa using h

/-- With an extension present, `processFileInternal` classifies the text after
the last dot and dispatches on the class. -/
theorem processFileInternal_dot (env : Env) (stem ext : List Nat) (mime : Option (List Nat))
    (tr : List Event) (h : 0x2e ∉ ext) :
    processFileInternal env (stem ++ 0x2e :: ext) mime tr =
      if FileHasAcceptableExtension (cstr ext) ext.length < 0 then
        (MediaScanResult.MEDIA_SCAN_RESULT_SKIPPED, tr)
      else if FileHasAcceptableExtension (cstr ext) ext.length = 0 then
        HandleMIDI env (stem ++ 0x2e :: ext) tr
      else retrieveTags env (stem ++ 0x2e :: ext) tr := by
  have hd : List.drop (stem.length + 1) (cstr (stem ++ 0x2e :: ext)) = cstr ext := by
    have hm : cstr (stem ++ 0x2e :: ext) = (stem ++ [0x2e]) ++ cstr ext := by simp [cstr]
    rw [hm, List.drop_left' (by simp)]
  have hl : ((stem ++ 0x2e :: ext).length : Int) - ((stem.length : Int) + 1) = ext.length := by
    simp
  have ht : ((stem.length : Int) + 1).toNat = stem.length + 1 := by omega
  simp only [processFileInternal, findExtOffset_dot stem ext h, hl, ht, hd]
  have : ¬ ((stem.length : Int) < 0) := by omega
  simp [this]

theorem processFileInternal_no_dot (env : Env) (path : List Nat) (mime : Option (List Nat))
    (tr : List Event) (h : 0x2e ∉ path) :
    processFileInternal env path mime tr = (MediaScanResult.MEDIA_SCAN_RESULT_SKIPPED, tr) := by
  simp [processFileInternal, findExtOffset_no_dot path h]

/-! ## HandleMIDI -/

theorem HandleMIDI_bad_config (env : Env) (filename : List Nat) (tr : List Event)
    (h : env.EAS_Config ≠ some env.LIB_VERSION) :
    HandleMIDI env filename tr =
      (MediaScanResult.MEDIA_SCAN_RESULT_ERROR, tr ++ [Event.EAS_Config]) := by
  unfold HandleMIDI
  cases hc : env.EAS_Config with
  | none => rfl
  | some v =>
    have : env.LIB_VERSION ≠ v := by
      intro hv
      exact h (by rw [hc, hv])
    simp [this]

theorem engineEvents_engine (env : Env) (filename : List Nat) :
    ∀ e ∈ engineEvents env filename, isEngineCall e = true := by
  unfold engineEvents
  intro e he
  simp only [List.mem_append, List.mem_cons, List.mem_singleton, List.not_mem_nil, or_false] at he
  rcases he with ((h | h) | h) | h
  · rcases h with rfl | rfl <;> rfl
  · split at h
    · simp only [List.mem_append, List.mem_singleton] at h
      rcases h with rfl | h
      · rfl
      · split at h
        · simp only [List.mem_append, List.mem_singleton] at h
          rcases h with rfl | h
          · rfl
          · split at h
            · simp only [List.mem_singleton] at h
              rw [h]; rfl
            · simp at h
        · simp at h
    · simp at h
  · split at h
    · simp only [List.mem_singleton] at h
      rw [h]; rfl
    · simp at h
  · split at h
    · simp only [List.mem_singleton] at h
      rw [h]; rfl
    · simp at h

/-- With the expected library version, `HandleMIDI` makes its engine calls,
then either skips (some call failed) or forwards the duration. -/
theorem HandleMIDI_engine (env : Env) (filename : List Nat) (tr : List Event)
    (h : env.EAS_Config = some env.LIB_VERSION) :
    HandleMIDI env filename tr =
      if engineSucceeds env filename then
        (if env.addStringTag (tr ++ engineEvents env filename) "duration"
              (sprintf_ld env.EAS_ParseMetaData.2) ≠ OK
          then MediaScanResult.MEDIA_SCAN_RESULT_ERROR
          else MediaScanResult.MEDIA_SCAN_RESULT_OK,
         tr ++ engineEvents env filename ++
           [Event.addStringTag "duration" (sprintf_ld env.EAS_ParseMetaData.2)
             (env.addStringTag (tr ++ engineEvents env filename) "duration"
               (sprintf_ld env.EAS_ParseMetaData.2))])
      else (MediaScanResult.MEDIA_SCAN_RESULT_SKIPPED, tr ++ engineEvents env filename) := by
  unfold HandleMIDI engineEvents engineSucceeds
  simp only [h, ne_eq, not_true_eq_false, if_false]
  by_cases h1 : env.EAS_Init.1 = EAS_SUCCESS
  · by_cases h2 : (env.EAS_OpenFile filename).1 = EAS_SUCCESS
    · by_cases h3 : env.EAS_Prepare = EAS_SUCCESS
      · by_cases h4 : env.EAS_ParseMetaData.1 = EAS_SUCCESS <;>
        cases h5 : env.EAS_Init.2 <;>
        cases h6 : (env.EAS_OpenFile filename).2 <;>
        simp [h1, h2, h3, h4, h5, h6] <;>
        (try (split_ifs <;> rfl))
      · cases h5 : env.EAS_Init.2 <;>
        cases h6 : (env.EAS_OpenFile filename).2 <;>
        simp [h1, h2, h3, h5, h6]
    · cases h5 : env.EAS_Init.2 <;>
      cases h6 : (env.EAS_OpenFile filename).2 <;>
      simp [h1, h2, h5, h6]
  · cases h5 : env.EAS_Init.2 <;>
    simp [h1, h5]

/-! ## The metadata loop -/

/-- The loop appends `extractMetadata` and `addStringTag` events only, and
reports an error exactly when one of its `addStringTag` calls was rejected. -/
theorem tagLoop_events (env : Env) :
    ∀ (l : List (String × MetadataKey)) (tr : List Event),
      ∃ new : List Event, (tagLoop env l tr).2 = tr ++ new ∧
        (∀ e ∈ new, isLoopEvent e = true) ∧
        ((tagLoop env l tr).1 = MediaScanResult.MEDIA_SCAN_RESULT_ERROR ↔
          ∃ e ∈ new, isRejectedWrite e = true) ∧
        ((tagLoop env l tr).1 = MediaScanResult.MEDIA_SCAN_RESULT_ERROR ∨
          (tagLoop env l tr).1 = MediaScanResult.MEDIA_SCAN_RESULT_OK)
  | [], tr => ⟨[], by simp [tagLoop]⟩
  | (tag, key) :: rest, tr => by
    cases hv : env.extractMetadata key with
    | none =>
      obtain ⟨new, h1, h2, h3, h4⟩ :=
        tagLoop_events env rest (tr ++ [Event.extractMetadata key none])
      refine ⟨Event.extractMetadata key none :: new, ?_, ?_, ?_, ?_⟩
      · simp [tagLoop, hv, h1]
      · intro e he
        rcases List.mem_cons.1 he with rfl | he
        · rfl
        · exact h2 e he
      · simp only [tagLoop, hv, h3]
        simp [isRejectedWrite]
      · simpa [tagLoop, hv] using h4
    | some v =>
      by_cases hs : env.addStringTag (tr ++ [Event.extractMetadata key (some v)]) tag v = OK
      · obtain ⟨new, h1, h2, h3, h4⟩ :=
          tagLoop_events env rest (tr ++ [Event.extractMetadata key (some v)] ++
            [Event.addStringTag tag v OK])
        refine ⟨Event.extractMetadata key (some v) :: Event.addStringTag tag v OK :: new,
          ?_, ?_, ?_, ?_⟩
        · simp only [tagLoop, hv, hs, ne_eq, not_true_eq_false, if_false, h1]
          simp
        · intro e he
          rcases List.mem_cons.1 he with rfl | he
          · rfl
          · rcases List.mem_cons.1 he with rfl | he
            · rfl
            · exact h2 e he
        · simp only [tagLoop, hv, hs, ne_eq, not_true_eq_false, if_false, h3]
          simp [isRejectedWrite, OK]
        · simpa only [tagLoop, hv, hs, ne_eq, not_true_eq_false, if_false] using h4
      · refine ⟨[Event.extractMetadata key (some v), Event.addStringTag tag v
          (env.addStringTag (tr ++ [Event.extractMetadata key (some v)]) tag v)], ?_, ?_, ?_, ?_⟩
        · simp [tagLoop, hv, hs]
        · intro e he
          simp only [List.mem_cons, List.mem_singleton, List.not_mem_nil, or_false] at he
          rcases he with rfl | rfl <;> rfl
        · have hs0 : ¬ env.addStringTag (tr ++ [Event.extractMetadata key (some v)]) tag v = 0 := hs
          simp [tagLoop, hv, hs, isRejectedWrite, hs0]
        · simp [tagLoop, hv, hs]

/-- When the sink accepts every tag, the loop forwards, in table order, each
entry for which the retriever has a value, and succeeds. -/
theorem tagLoop_accepting (env : Env) (hacc : ∀ h t v, env.addStringTag h t v = OK) :
    ∀ (l : List (String × MetadataKey)) (tr : List Event),
      (tagLoop env l tr).1 = MediaScanResult.MEDIA_SCAN_RESULT_OK ∧
      addStringTagCalls (tagLoop env l tr).2 = addStringTagCalls tr ++
        l.filterMap (fun p => (env.extractMetadata p.2).map (fun v => (p.1, v)))
  | [], tr => by simp [tagLoop]
  | (tag, key) :: rest, tr => by
    cases hv : env.extractMetadata key with
    | none =>
      have ih := tagLoop_accepting env hacc rest (tr ++ [Event.extractMetadata key none])
      simp only [tagLoop, hv, ih.1, ih.2, true_and]
      simp [addStringTagCalls, hv]
    | some v =>
      have ih := tagLoop_accepting env hacc rest (tr ++ [Event.extractMetadata key (some v)] ++
        [Event.addStringTag tag v OK])
      simp only [tagLoop, hv, hacc, ne_eq, not_true_eq_false, if_false, ih.1, ih.2, true_and]
      simp [addStringTagCalls, hv]

/-! ## The retriever path -/

theorem isBracketCall_of_loop (e : Event) (h : isLoopEvent e = true) :
    isBracketCall e = false := by
  cases e <;> simp_all [isLoopEvent, isBracketCall]

theorem forwardMetadata_events (env : Env) (tr : List Event) :
    ∃ new : List Event, (forwardMetadata env tr).2 = tr ++ new ∧
      (∀ e ∈ new, isBracketCall e = false) ∧
      ((forwardMetadata env tr).1 = MediaScanResult.MEDIA_SCAN_RESULT_ERROR ↔
        ∃ e ∈ new, isRejectedWrite e = true) ∧
      ((forwardMetadata env tr).1 = MediaScanResult.MEDIA_SCAN_RESULT_ERROR ∨
        (forwardMetadata env tr).1 = MediaScanResult.MEDIA_SCAN_RESULT_OK) := by
  cases hv : env.extractMetadata MetadataKey.METADATA_KEY_MIMETYPE with
  | none =>
    obtain ⟨new, h1, h2, h3, h4⟩ := tagLoop_events env kKeyMap
      (tr ++ [Event.extractMetadata MetadataKey.METADATA_KEY_MIMETYPE none])
    refine ⟨Event.extractMetadata MetadataKey.METADATA_KEY_MIMETYPE none :: new, ?_, ?_, ?_, ?_⟩
    · simp only [forwardMetadata, hv, h1]
      simp
    · intro e he
      rcases List.mem_cons.1 he with rfl | he
      · rfl
      · exact isBracketCall_of_loop e (h2 e he)
    · simp only [forwardMetadata, hv, h3]
      simp [isRejectedWrite]
    · simpa only [forwardMetadata, hv] using h4
  | some v =>
    by_cases hs : env.setMimeType
        (tr ++ [Event.extractMetadata MetadataKey.METADATA_KEY_MIMETYPE (some v)]) v = 0
    · obtain ⟨new, h1, h2, h3, h4⟩ := tagLoop_events env kKeyMap
        (tr ++ [Event.extractMetadata MetadataKey.METADATA_KEY_MIMETYPE (some v)] ++
          [Event.setMimeType v 0])
      refine ⟨Event.extractMetadata MetadataKey.METADATA_KEY_MIMETYPE (some v) ::
        Event.setMimeType v 0 :: new, ?_, ?_, ?_, ?_⟩
      · simp only [forwardMetadata, hv, hs, ne_eq, not_true_eq_false, if_false, h1]
        simp
      · intro e he
        rcases List.mem_cons.1 he with rfl | he
        · rfl
        · rcases List.mem_cons.1 he with rfl | he
          · rfl
          · exact isBracketCall_of_loop e (h2 e he)
      · simp only [forwardMetadata, hv, hs, ne_eq, not_true_eq_false, if_false, h3]
        simp [isRejectedWrite]
      · simpa only [forwardMetadata, hv, hs, ne_eq, not_true_eq_false, if_false] using h4
    · refine ⟨[Event.extractMetadata MetadataKey.METADATA_KEY_MIMETYPE (some v),
        Event.setMimeType v (env.setMimeType
          (tr ++ [Event.extractMetadata MetadataKey.METADATA_KEY_MIMETYPE (some v)]) v)],
        ?_, ?_, ?_, ?_⟩
      · simp [forwardMetadata, hv, hs]
      · intro e he
        simp only [List.mem_cons, List.mem_singleton, List.not_mem_nil, or_false] at he
        rcases he with rfl | rfl <;> rfl
      · simp [forwardMetadata, hv, hs, isRejectedWrite]
      · simp [forwardMetadata, hv, hs]

/-- The retriever path appends no bracket call, and reports an error exactly
when the data source could not be set or a sink write was rejected. -/
theorem retrieveTags_events (env : Env) (path : List Nat) (tr : List Event) :
    ∃ new : List Event, (retrieveTags env path tr).2 = tr ++ new ∧
      (∀ e ∈ new, isBracketCall e = false) ∧
      ((retrieveTags env path tr).1 = MediaScanResult.MEDIA_SCAN_RESULT_ERROR ↔
        (dataSourceStatus env path ≠ 0 ∨ ∃ e ∈ new, isRejectedWrite e = true)) ∧
      ((retrieveTags env path tr).1 = MediaScanResult.MEDIA_SCAN_RESULT_ERROR ∨
        (retrieveTags env path tr).1 = MediaScanResult.MEDIA_SCAN_RESULT_OK) := by
  by_cases hfd : env.sys_open path < 0
  · by_cases hst : env.setDataSourcePath path = 0
    · obtain ⟨new, h1, h2, h3, h4⟩ := forwardMetadata_events env
        (tr ++ [Event.newRetriever] ++ [Event.sys_open path (env.sys_open path)] ++
          [Event.setDataSourcePath path 0])
      refine ⟨Event.newRetriever :: Event.sys_open path (env.sys_open path) ::
        Event.setDataSourcePath path 0 :: new, ?_, ?_, ?_, ?_⟩
      · simp only [retrieveTags, hfd, hst, if_true, ne_eq, not_true_eq_false, if_false, h1]
        simp
      · intro e he
        simp only [List.mem_cons] at he
        rcases he with rfl | rfl | rfl | he
        · rfl
        · rfl
        · rfl
        · exact h2 e he
      · simp only [retrieveTags, dataSourceStatus, hfd, hst, if_true, ne_eq, not_true_eq_false,
          if_false, h3]
        simp [isRejectedWrite]
      · simpa only [retrieveTags, hfd, hst, if_true, ne_eq, not_true_eq_false, if_false] using h4
    · refine ⟨[Event.newRetriever, Event.sys_open path (env.sys_open path),
        Event.setDataSourcePath path (env.setDataSourcePath path)], ?_, ?_, ?_, ?_⟩
      · simp [retrieveTags, hfd, hst]
      · intro e he
        simp only [List.mem_cons, List.mem_singleton, List.not_mem_nil, or_false] at he
        rcases he with rfl | rfl | rfl <;> rfl
      · simp [retrieveTags, dataSourceStatus, hfd, hst]
      · simp [retrieveTags, hfd, hst]
  · by_cases hst : env.setDataSourceFd (env.sys_open path) = 0
    · obtain ⟨new, h1, h2, h3, h4⟩ := forwardMetadata_events env
        (tr ++ [Event.newRetriever] ++ [Event.sys_open path (env.sys_open path)] ++
          [Event.setDataSourceFd (env.sys_open path) 0, Event.sys_close (env.sys_open path)])
      refine ⟨Event.newRetriever :: Event.sys_open path (env.sys_open path) ::
        Event.setDataSourceFd (env.sys_open path) 0 :: Event.sys_close (env.sys_open path) ::
        new, ?_, ?_, ?_, ?_⟩
      · simp only [retrieveTags, hfd, hst, if_true, ne_eq, not_true_eq_false, if_false, h1]
        simp
      · intro e he
        simp only [List.mem_cons] at he
        rcases he with rfl | rfl | rfl | rfl | he
        · rfl
        · rfl
        · rfl
        · rfl
        · exact h2 e he
      · simp only [retrieveTags, dataSourceStatus, hfd, hst, if_true, ne_eq, not_true_eq_false,
          if_false, h3]
        simp [isRejectedWrite]
      · simpa only [retrieveTags, hfd, hst, if_true, ne_eq, not_true_eq_false, if_false] using h4
    · refine ⟨[Event.newRetriever, Event.sys_open path (env.sys_open path),
        Event.setDataSourceFd (env.sys_open path) (env.setDataSourceFd (env.sys_open path)),
        Event.sys_close (env.sys_open path)], ?_, ?_, ?_, ?_⟩
      · simp [retrieveTags, hfd, hst]
      · intro e he
        simp only [List.mem_cons, List.mem_singleton, List.not_mem_nil, or_false] at he
        rcases he with rfl | rfl | rfl | rfl <;> rfl
      · simp [retrieveTags, dataSourceStatus, hfd, hst]
      · simp [retrieveTags, hfd, hst]

/-! ## Traces of the whole scan -/

theorem eventsSince_append (tr new : List Event) : eventsSince tr (tr ++ new) = new := by
  simp [eventsSince]

theorem isTagCall_of_engine (e : Event) (h : isEngineCall e = true) : isTagCall e = false := by
  cases e <;> simp_all [isEngineCall, isTagCall]

theorem isBracketCall_of_engine (e : Event) (h : isEngineCall e = true) :
    isBracketCall e = false := by
  cases e <;> simp_all [isEngineCall, isBracketCall]

theorem isSinkCall_of_engine (e : Event) (h : isEngineCall e = true) :
    isSinkCall e = false := by
  cases e <;> simp_all [isEngineCall, isSinkCall]

theorem HandleMIDI_events (env : Env) (filename : List Nat) (tr : List Event) :
    ∃ new : List Event, (HandleMIDI env filename tr).2 = tr ++ new ∧
      ∀ e ∈ new, isBracketCall e = false := by
  by_cases hc : env.EAS_Config = some env.LIB_VERSION
  · rw [HandleMIDI_engine env filename tr hc]
    have he := engineEvents_engine env filename
    split
    · refine ⟨engineEvents env filename ++ [Event.addStringTag "duration"
        (sprintf_ld env.EAS_ParseMetaData.2)
        (env.addStringTag (tr ++ engineEvents env filename) "duration"
          (sprintf_ld env.EAS_ParseMetaData.2))], by simp, ?_⟩
      intro e h
      rcases List.mem_append.1 h with h | h
      · exact isBracketCall_of_engine e (he e h)
      · rw [List.mem_singleton.1 h]; rfl
    · exact ⟨engineEvents env filename, rfl, fun e h => isBracketCall_of_engine e (he e h)⟩
  · rw [HandleMIDI_bad_config env filename tr hc]
    refine ⟨[Event.EAS_Config], rfl, ?_⟩
    intro e h
    rw [List.mem_singleton.1 h]; rfl

theorem processFileInternal_events (env : Env) (path : List Nat) (mime : Option (List Nat))
    (tr : List Event) :
    ∃ new : List Event, (processFileInternal env path mime tr).2 = tr ++ new ∧
      ∀ e ∈ new, isBracketCall e = false := by
  unfold processFileInternal
  simp only []
  split
  · exact ⟨[], by simp⟩
  · split
    · exact ⟨[], by simp⟩
    · split
      · exact HandleMIDI_events env path tr
      · obtain ⟨new, h1, h2, _⟩ := retrieveTags_events env path tr
        exact ⟨new, h1, h2⟩

theorem retrieveTags_accepting (env : Env) (path : List Nat) (tr : List Event)
    (hsrc : dataSourceStatus env path = 0) (hmime : ∀ h v, env.setMimeType h v = 0)
    (htag : ∀ h t v, env.addStringTag h t v = OK) :
    (retrieveTags env path tr).1 = MediaScanResult.MEDIA_SCAN_RESULT_OK ∧
    addStringTagCalls (retrieveTags env path tr).2 = addStringTagCalls tr ++
      kKeyMap.filterMap (fun p => (env.extractMetadata p.2).map (fun v => (p.1, v))) := by
  unfold dataSourceStatus at hsrc
  by_cases hfd : env.sys_open path < 0
  · rw [if_pos hfd] at hsrc
    cases hv : env.extractMetadata MetadataKey.METADATA_KEY_MIMETYPE with
    | none =>
      simp only [retrieveTags, forwardMetadata, hfd, hsrc, hv, if_true, ne_eq,
        not_true_eq_false, if_false]
      have := tagLoop_accepting env htag kKeyMap
        (tr ++ [Event.newRetriever] ++ [Event.sys_open path (env.sys_open path)] ++
          [Event.setDataSourcePath path 0] ++
          [Event.extractMetadata MetadataKey.METADATA_KEY_MIMETYPE none])
      refine ⟨this.1, this.2.trans ?_⟩
      simp [addStringTagCalls]
    | some v =>
      simp only [retrieveTags, forwardMetadata, hfd, hsrc, hv, hmime, if_true, ne_eq,
        not_true_eq_false, if_false]
      have := tagLoop_accepting env htag kKeyMap
        (tr ++ [Event.newRetriever] ++ [Event.sys_open path (env.sys_open path)] ++
          [Event.setDataSourcePath path 0] ++
          [Event.extractMetadata MetadataKey.METADATA_KEY_MIMETYPE (some v)] ++
          [Event.setMimeType v 0])
      refine ⟨this.1, this.2.trans ?_⟩
      simp [addStringTagCalls]
  · rw [if_neg hfd] at hsrc
    cases hv : env.extractMetadata MetadataKey.METADATA_KEY_MIMETYPE with
    | none =>
      simp only [retrieveTags, forwardMetadata, hfd, hsrc, hv, if_true, ne_eq,
        not_true_eq_false, if_false]
      have := tagLoop_accepting env htag kKeyMap
        (tr ++ [Event.newRetriever] ++ [Event.sys_open path (env.sys_open path)] ++
          [Event.setDataSourceFd (env.sys_open path) 0, Event.sys_close (env.sys_open path)] ++
          [Event.extractMetadata MetadataKey.METADATA_KEY_MIMETYPE none])
      refine ⟨this.1, this.2.trans ?_⟩
      simp [addStringTagCalls]
    | some v =>
      simp only [retrieveTags, forwardMetadata, hfd, hsrc, hv, hmime, if_true, ne_eq,
        not_true_eq_false, if_false]
      have := tagLoop_accepting env htag kKeyMap
        (tr ++ [Event.newRetriever] ++ [Event.sys_open path (env.sys_open path)] ++
          [Event.setDataSourceFd (env.sys_open path) 0, Event.sys_close (env.sys_open path)] ++
          [Event.extractMetadata MetadataKey.METADATA_KEY_MIMETYPE (some v)] ++
          [Event.setMimeType v 0])
      refine ⟨this.1, this.2.trans ?_⟩
      simp [addStringTagCalls]

/-! ## The dispatcher: claims -/

/-- C4, as stated, fails: with the library configuration missing (an engine
failure of the kind the claim lists), `HandleMIDI` does not return SKIPPED. -/
theorem C4_counterexample :
    ¬ ((quietEnv.EAS_Config ≠ some quietEnv.LIB_VERSION ∨
          ¬ engineSucceeds quietEnv (bytesOf "a.mid")) →
        (HandleMIDI quietEnv (bytesOf "a.mid") []).1 =
            MediaScanResult.MEDIA_SCAN_RESULT_SKIPPED ∧
          ∀ e ∈ (HandleMIDI quietEnv (bytesOf "a.mid") []).2, isTagCall e = false) := by
  decide

/-- C4, amended: on every engine failure no tag is sent to the sink, and
`HandleMIDI` returns SKIPPED when the library configuration is present with
the version `LIB_VERSION` and `EAS_Init`, `EAS_OpenFile`, `EAS_Prepare` or
`EAS_ParseMetaData` fails, but ERROR when the library configuration is missing
or its version differs from `LIB_VERSION`. -/
theorem C4_engine_failure_result (env : Env) (filename : List Nat) (tr : List Event)
    (hfail : env.EAS_Config ≠ some env.LIB_VERSION ∨ ¬ engineSucceeds env filename) :
    (HandleMIDI env filename tr).1 =
      (if env.EAS_Config = some env.LIB_VERSION then MediaScanResult.MEDIA_SCAN_RESULT_SKIPPED
        else MediaScanResult.MEDIA_SCAN_RESULT_ERROR) ∧
    ∀ e ∈ eventsSince tr (HandleMIDI env filename tr).2, isTagCall e = false := by
  by_cases hc : env.EAS_Config = some env.LIB_VERSION
  · have hs : ¬ engineSucceeds env filename := by
      rcases hfail with h | h
      · exact absurd hc h
      · exact h
    rw [HandleMIDI_engine env filename tr hc, if_neg hs, if_pos hc, eventsSince_append]
    exact ⟨rfl, fun e h => isTagCall_of_engine e (engineEvents_engine env filename e h)⟩
  · rw [HandleMIDI_bad_config env filename tr hc, if_neg hc, eventsSince_append]
    refine ⟨rfl, ?_⟩
    intro e h
    rw [List.mem_singleton.1 h]; rfl

theorem C4_engine_failure_result_witness :
    (failingPrepareEnv.EAS_Config ≠ some failingPrepareEnv.LIB_VERSION ∨
      ¬ engineSucceeds failingPrepareEnv (bytesOf "a.mid")) ∧
    ((HandleMIDI failingPrepareEnv (bytesOf "a.mid") []).1 =
        (if failingPrepareEnv.EAS_Config = some failingPrepareEnv.LIB_VERSION
          then MediaScanResult.MEDIA_SCAN_RESULT_SKIPPED
          else MediaScanResult.MEDIA_SCAN_RESULT_ERROR) ∧
      ∀ e ∈ eventsSince [] (HandleMIDI failingPrepareEnv (bytesOf "a.mid") []).2,
        isTagCall e = false) :=
  ⟨by decide, C4_engine_failure_result failingPrepareEnv (bytesOf "a.mid") [] (by decide)⟩

/-- C5, as stated, fails: for the path "abc", which has no dot, the sink
receives a call other than `beginFile` and `endFile` (namely `setLocale`). -/
theorem C5_counterexample :
    ¬ (0x2e ∉ bytesOf "abc" →
        (processFile quietEnv (bytesOf "abc") none).1 =
            MediaScanResult.MEDIA_SCAN_RESULT_SKIPPED ∧
          ∀ e ∈ sinkCalls (processFile quietEnv (bytesOf "abc") none).2,
            e = Event.beginFile ∨ e = Event.endFile) := by
  decide

/-- C5, amended: for every path that contains no dot, `processFile` returns
SKIPPED and the only collaborator calls are, in order, `setLocale`,
`beginFile` and `endFile` on the sink. -/
theorem C5_no_dot_skipped (env : Env) (path : List Nat) (mime : Option (List Nat))
    (h : 0x2e ∉ path) :
    processFile env path mime =
      (MediaScanResult.MEDIA_SCAN_RESULT_SKIPPED,
        [Event.setLocale env.locale, Event.beginFile, Event.endFile]) := by
  simp [processFile, processFileInternal_no_dot env path mime _ h]

theorem C5_no_dot_skipped_witness :
    0x2e ∉ bytesOf "abc" ∧
    processFile quietEnv (bytesOf "abc") none =
      (MediaScanResult.MEDIA_SCAN_RESULT_SKIPPED,
        [Event.setLocale quietEnv.locale, Event.beginFile, Event.endFile]) :=
  ⟨by decide, C5_no_dot_skipped quietEnv (bytesOf "abc") none (by decide)⟩

/-- C6: for every path and every behaviour of the collaborators, in the sink
call trace of one `processFile` call every `setMimeType` and `addStringTag`
call has a `beginFile` call before it, there is exactly one `endFile` call,
and it is the last call of the trace. -/
theorem C6_begin_end_bracket (env : Env) (path : List Nat) (mime : Option (List Nat)) :
    (∀ pre e post, sinkCalls (processFile env path mime).2 = pre ++ e :: post →
      isTagCall e = true → Event.beginFile ∈ pre) ∧
    (sinkCalls (processFile env path mime).2).count Event.endFile = 1 ∧
    (sinkCalls (processFile env path mime).2).getLast? = some Event.endFile := by
  obtain ⟨new, h1, h2⟩ := processFileInternal_events env path mime
    [Event.setLocale env.locale, Event.beginFile]
  have hs : sinkCalls (processFile env path mime).2 =
      Event.setLocale env.locale :: Event.beginFile :: (sinkCalls new ++ [Event.endFile]) := by
    simp [processFile, h1, sinkCalls, isSinkCall]
  have hn : ∀ e ∈ sinkCalls new, isBracketCall e = false := by
    intro e he
    exact h2 e (List.mem_filter.1 he).1
  rw [hs]
  refine ⟨?_, ?_, ?_⟩
  · intro pre e post heq htag
    match pre, heq with
    | [], heq =>
      simp only [List.nil_append, List.cons.injEq] at heq
      rw [← heq.1] at htag
      simp [isTagCall] at htag
    | [x], heq =>
      simp only [List.cons_append, List.nil_append, List.cons.injEq] at heq
      rw [← heq.2.1] at htag
      simp [isTagCall] at htag
    | x :: y :: rest, heq =>
      simp only [List.cons_append, List.cons.injEq] at heq
      rw [← heq.2.1]
      simp
  · have hc : (sinkCalls new).count Event.endFile = 0 := by
      rw [List.count_eq_zero]
      intro hm
      have := hn _ hm
      simp [isBracketCall] at this
    simp [List.count_cons, List.count_append, hc]
  · have : Event.setLocale env.locale :: Event.beginFile :: (sinkCalls new ++ [Event.endFile]) =
        (Event.setLocale env.locale :: Event.beginFile :: sinkCalls new) ++ [Event.endFile] := rfl
    rw [this, List.getLast?_concat]

/-- C7: for every path `stem.ext` whose extension classifies as
other-recognized, whose data source is established and whose sink accepts
every write, `processFileInternal` returns OK and its `addStringTag` calls are
exactly the entries of the fixed key list (tracknumber, discnumber, album,
artist, albumartist, composer, genre, title, year, duration, writer,
compilation, isdrm, width, height) for which the retriever returned a value,
in that order, each once, with the value of the retriever. -/
theorem C7_tags_forwarded_in_order (env : Env) (stem ext : List Nat)
    (mime : Option (List Nat)) (tr : List Event) (hdot : 0x2e ∉ ext)
    (hcls : FileHasAcceptableExtension (cstr ext) ext.length = 1)
    (hsrc : dataSourceStatus env (stem ++ 0x2e :: ext) = 0)
    (hmime : ∀ h v, env.setMimeType h v = 0)
    (htag : ∀ h t v, env.addStringTag h t v = OK) :
    (processFileInternal env (stem ++ 0x2e :: ext) mime tr).1 =
      MediaScanResult.MEDIA_SCAN_RESULT_OK ∧
    addStringTagCalls (processFileInternal env (stem ++ 0x2e :: ext) mime tr).2 =
      addStringTagCalls tr ++
        kKeyMap.filterMap (fun p => (env.extractMetadata p.2).map (fun v => (p.1, v))) ∧
    kKeyMap.map Prod.fst =
      ["tracknumber", "discnumber", "album", "artist", "albumartist", "composer", "genre",
       "title", "year", "duration", "writer", "compilation", "isdrm", "width", "height"] ∧
    (kKeyMap.map Prod.fst).Nodup := by
  rw [processFileInternal_dot env stem ext mime tr hdot, hcls]
  simp only [show ¬ ((1 : Int) < 0) by decide, show ¬ ((1 : Int) = 0) by decide, if_false]
  exact ⟨(retrieveTags_accepting env _ tr hsrc hmime htag).1,
    (retrieveTags_accepting env _ tr hsrc hmime htag).2, by decide, by decide⟩

theorem C7_tags_forwarded_in_order_witness :
    (processFileInternal workingEnv (bytesOf "/music/a" ++ 0x2e :: bytesOf "Mp3") none []).1 =
      MediaScanResult.MEDIA_SCAN_RESULT_OK ∧
    addStringTagCalls
        (processFileInternal workingEnv (bytesOf "/music/a" ++ 0x2e :: bytesOf "Mp3") none []).2 =
      addStringTagCalls [] ++
        kKeyMap.filterMap (fun p => (workingEnv.extractMetadata p.2).map (fun v => (p.1, v))) ∧
    kKeyMap.map Prod.fst =
      ["tracknumber", "discnumber", "album", "artist", "albumartist", "composer", "genre",
       "title", "year", "duration", "writer", "compilation", "isdrm", "width", "height"] ∧
    (kKeyMap.map Prod.fst).Nodup :=
  C7_tags_forwarded_in_order workingEnv (bytesOf "/music/a") (bytesOf "Mp3") none []
    (by decide) (by decide) (by decide) (fun _ _ => rfl) (fun _ _ _ => rfl)

/-- C8: for every path `stem.ext` whose extension classifies as
other-recognized, `processFileInternal` returns ERROR if and only if the
retriever's `setDataSource` fails (for the opened descriptor, or for the bare
path when the local open failed) or a `setMimeType` or `addStringTag` call it
made was rejected; otherwise it returns OK, and it never returns SKIPPED. -/
theorem C8_error_iff_source_or_sink_failure (env : Env) (stem ext : List Nat)
    (mime : Option (List Nat)) (tr : List Event) (hdot : 0x2e ∉ ext)
    (hcls : FileHasAcceptableExtension (cstr ext) ext.length = 1) :
    ((processFileInternal env (stem ++ 0x2e :: ext) mime tr).1 =
        MediaScanResult.MEDIA_SCAN_RESULT_ERROR ↔
      (dataSourceStatus env (stem ++ 0x2e :: ext) ≠ 0 ∨
        ∃ e ∈ eventsSince tr (processFileInternal env (stem ++ 0x2e :: ext) mime tr).2,
          isRejectedWrite e = true)) ∧
    ((processFileInternal env (stem ++ 0x2e :: ext) mime tr).1 ≠
        MediaScanResult.MEDIA_SCAN_RESULT_ERROR →
      (processFileInternal env (stem ++ 0x2e :: ext) mime tr).1 =
        MediaScanResult.MEDIA_SCAN_RESULT_OK) ∧
    (processFileInternal env (stem ++ 0x2e :: ext) mime tr).1 ≠
      MediaScanResult.MEDIA_SCAN_RESULT_SKIPPED := by
  rw [processFileInternal_dot env stem ext mime tr hdot, hcls]
  simp only [show ¬ ((1 : Int) < 0) by decide, show ¬ ((1 : Int) = 0) by decide, if_false]
  obtain ⟨new, h1, _, h3, h4⟩ := retrieveTags_events env (stem ++ 0x2e :: ext) tr
  rw [h1, eventsSince_append]
  refine ⟨h3, ?_, ?_⟩
  · intro hne
    rcases h4 with h | h
    · exact absurd h hne
    · exact h
  · rcases h4 with h | h <;> rw [h] <;> decide

theorem C8_error_iff_source_or_sink_failure_witness :
    ((processFileInternal workingEnv (bytesOf "/music/a" ++ 0x2e :: bytesOf "Mp3") none []).1 =
        MediaScanResult.MEDIA_SCAN_RESULT_ERROR ↔
      (dataSourceStatus workingEnv (bytesOf "/music/a" ++ 0x2e :: bytesOf "Mp3") ≠ 0 ∨
        ∃ e ∈ eventsSince []
            (processFileInternal workingEnv (bytesOf "/music/a" ++ 0x2e :: bytesOf "Mp3")
              none []).2,
          isRejectedWrite e = true)) ∧
    ((processFileInternal workingEnv (bytesOf "/music/a" ++ 0x2e :: bytesOf "Mp3") none []).1 ≠
        MediaScanResult.MEDIA_SCAN_RESULT_ERROR →
      (processFileInternal workingEnv (bytesOf "/music/a" ++ 0x2e :: bytesOf "Mp3") none []).1 =
        MediaScanResult.MEDIA_SCAN_RESULT_OK) ∧
    (processFileInternal workingEnv (bytesOf "/music/a" ++ 0x2e :: bytesOf "Mp3") none []).1 ≠
      MediaScanResult.MEDIA_SCAN_RESULT_SKIPPED :=
  C8_error_iff_source_or_sink_failure workingEnv (bytesOf "/music/a") (bytesOf "Mp3") none []
    (by decide) (by decide)

/-- C9: for every path `stem.ext` whose extension classifies as MIDI and for
which the version check, init, open, prepare and metadata parse of the engine
all succeed with duration `d`, the sink receives exactly one call,
`addStringTag` with key "duration" and the decimal representation of `d`; the
result is OK when the sink accepts that tag and ERROR when it rejects it. -/
theorem C9_midi_duration_tag (env : Env) (stem ext : List Nat)
    (mime : Option (List Nat)) (tr : List Event) (hdot : 0x2e ∉ ext)
    (hcls : FileHasAcceptableExtension (cstr ext) ext.length = 0)
    (hcfg : env.EAS_Config = some env.LIB_VERSION)
    (hok : engineSucceeds env (stem ++ 0x2e :: ext)) :
    ∃ status : Int,
      sinkCalls (eventsSince tr (processFileInternal env (stem ++ 0x2e :: ext) mime tr).2) =
        [Event.addStringTag "duration" (toString env.EAS_ParseMetaData.2) status] ∧
      (status = OK → (processFileInternal env (stem ++ 0x2e :: ext) mime tr).1 =
        MediaScanResult.MEDIA_SCAN_RESULT_OK) ∧
      (status ≠ OK → (processFileInternal env (stem ++ 0x2e :: ext) mime tr).1 =
        MediaScanResult.MEDIA_SCAN_RESULT_ERROR) := by
  rw [processFileInternal_dot env stem ext mime tr hdot, hcls]
  simp only [show ¬ ((0 : Int) < 0) by decide, if_false, if_true]
  rw [HandleMIDI_engine env _ tr hcfg, if_pos hok, List.append_assoc, eventsSince_append]
  refine ⟨env.addStringTag (tr ++ engineEvents env (stem ++ 0x2e :: ext)) "duration"
    (sprintf_ld env.EAS_ParseMetaData.2), ?_, ?_, ?_⟩
  · have hf : List.filter isSinkCall (engineEvents env (stem ++ 0x2e :: ext)) = [] := by
      rw [List.filter_eq_nil_iff]
      intro e he
      simp [isSinkCall_of_engine e (engineEvents_engine env _ e he)]
    simp [sinkCalls, List.filter_append, hf, isSinkCall, sprintf_ld]
  · intro h
    simp [h]
  · intro h
    simp [h]

theorem C9_midi_duration_tag_witness :
    ∃ status : Int,
      sinkCalls (eventsSince []
          (processFileInternal workingEnv (bytesOf "/music/a" ++ 0x2e :: bytesOf "MID")
            none []).2) =
        [Event.addStringTag "duration" "1234" status] ∧
      (status = OK →
        (processFileInternal workingEnv (bytesOf "/music/a" ++ 0x2e :: bytesOf "MID") none []).1 =
          MediaScanResult.MEDIA_SCAN_RESULT_OK) ∧
      (status ≠ OK →
        (processFileInternal workingEnv (bytesOf "/music/a" ++ 0x2e :: bytesOf "MID") none []).1 =
          MediaScanResult.MEDIA_SCAN_RESULT_ERROR) :=
  C9_midi_duration_tag workingEnv (bytesOf "/music/a") (bytesOf "MID") none []
    (by decide) (by decide) (by decide) (by decide)

/-! ## The five-byte MIDI entry -/

/-- C11, as stated, fails: "rtttx" has the first four bytes of the entry and
a letter as fifth byte, and is not classified as MIDI. -/
theorem C11_counterexample :
    ¬ (caseVariant (bytesOf "rttt") (bytesOf "rttt") = true →
        isAsciiLetter (Char.toNat 'x') = true →
        FileHasAcceptableExtension (cstr (bytesOf "rttt" ++ [Char.toNat 'x'])) 5 = 0) := by
  decide

/-- C11, amended: the 5-byte MIDI entry accepts only l or L in its last
position. For every 5-byte extension whose first four bytes equal "rttt" up to
ASCII letter case, the result is 0 iff the fifth byte is l or L, and -1 for
every other fifth byte (every other letter included). -/
theorem C11_rtttl_last_byte (a b c d e : Nat) (rest : List Nat) (he : e < 256)
    (hv : caseVariant (bytesOf "rttt") [a, b, c, d] = true) :
    (FileHasAcceptableExtension (a :: b :: c :: d :: e :: rest) 5 = 0 ↔
      (e = Char.toNat 'l' ∨ e = Char.toNat 'L')) ∧
    (¬ (e = Char.toNat 'l' ∨ e = Char.toNat 'L') →
      FileHasAcceptableExtension (a :: b :: c :: d :: e :: rest) 5 = -1) := by
  have hl := caseVariant_lower (bytesOf "rttt") [a, b, c, d] hv (by decide)
  have ha := hl.2 a (by simp)
  have hb := hl.2 b (by simp)
  have hc := hl.2 c (by simp)
  have hd := hl.2 d (by simp)
  have h4 : bytesOf "rttt" = [114, 116, 116, 116] := by decide
  have h1 : bytesOf "3gpp2" = [51, 103, 112, 112, 50] := by decide
  have h2 : bytesOf "rtttl" = [114, 116, 116, 116, 108] := by decide
  have hm := hl.1
  rw [h4] at hm
  simp only [List.map_cons, List.map_nil, List.cons.injEq, and_true] at hm
  have k1 : ¬ ([a, b, c, d, e].map asciiLower = bytesOf "3gpp2") := by
    rw [h1]
    simp [hm.1]
  have k2 : ([a, b, c, d, e].map asciiLower = bytesOf "rtttl") ↔ (e = 108 ∨ e = 76) := by
    rw [h2]
    simp only [List.map_cons, List.map_nil, List.cons.injEq, and_true, hm.1, hm.2.1, hm.2.2.1,
      hm.2.2.2, true_and, asciiLower_letter _ 108 (by decide) (by decide)]
    omega
  have hl1 : Char.toNat 'l' = 108 := rfl
  have hl2 : Char.toNat 'L' = 76 := rfl
  rw [view5 a b c d e rest ha hb hc hd he, if_neg k1, hl1, hl2, ← k2]
  by_cases q : [a, b, c, d, e].map asciiLower = bytesOf "rtttl" <;> simp [q]

theorem C11_rtttl_last_byte_witness :
    (Char.toNat 'x' < 256 ∧ caseVariant (bytesOf "rttt") (bytesOf "RtTt") = true) ∧
    ((FileHasAcceptableExtension (bytesOf "RtTt" ++ [Char.toNat 'x', 0]) 5 = 0 ↔
        (Char.toNat 'x' = Char.toNat 'l' ∨ Char.toNat 'x' = Char.toNat 'L')) ∧
      (¬ (Char.toNat 'x' = Char.toNat 'l' ∨ Char.toNat 'x' = Char.toNat 'L') →
        FileHasAcceptableExtension (bytesOf "RtTt" ++ [Char.toNat 'x', 0]) 5 = -1)) :=
  ⟨by decide, C11_rtttl_last_byte (Char.toNat 'R') (Char.toNat 't') (Char.toNat 'T')
    (Char.toNat 't') (Char.toNat 'x') [0] (by decide) (by decide)⟩

/-! ## The extension of a path -/

theorem takeWhile_split (x : Nat) : ∀ l : List Nat, x ∈ l →
    ∃ rest, l = l.takeWhile (fun b => b != x) ++ x :: rest
  | [], h => by simp at h
  | a :: l, h => by
    by_cases hax : a = x
    · exact ⟨l, by simp [hax]⟩
    · have hx : x ∈ l := by
        rcases List.mem_cons.1 h with h | h
        · exact absurd h.symm hax
        · exact h
      obtain ⟨rest, hr⟩ := takeWhile_split x l hx
      refine ⟨rest, ?_⟩
      have : (a != x) = true := by simpa using hax
      rw [List.takeWhile_cons, this]
      simp only [if_true, List.cons_append]
      rw [← hr]

theorem lastExtension_no_dot (path : List Nat) : 0x2e ∉ lastExtension path := by
  unfold lastExtension
  intro h
  have h2 := List.mem_takeWhile_imp (List.mem_reverse.1 h)
  simp at h2

theorem lastExtension_split (path : List Nat) (h : 0x2e ∈ path) :
    ∃ stem, path = stem ++ 0x2e :: lastExtension path := by
  obtain ⟨rest, hr⟩ := takeWhile_split 0x2e path.reverse (List.mem_reverse.2 h)
  refine ⟨rest.reverse, ?_⟩
  have := congrArg List.reverse hr
  simpa [lastExtension] using this

/-- C12: for every path that contains a dot, `processFileInternal` classifies
exactly the text after the last dot of the path, with `len` its length
(possibly 0), and dispatches on that class; when the class is -1 it returns
SKIPPED and appends nothing to the trace: no call to the MIDI engine, the
retriever or the sink. -/
theorem C12_classifies_last_extension (env : Env) (path : List Nat)
    (mime : Option (List Nat)) (tr : List Event) (h : 0x2e ∈ path) :
    (∃ stem, path = stem ++ 0x2e :: lastExtension path) ∧ 0x2e ∉ lastExtension path ∧
    processFileInternal env path mime tr =
      (if FileHasAcceptableExtension (cstr (lastExtension path)) (lastExtension path).length < 0
        then (MediaScanResult.MEDIA_SCAN_RESULT_SKIPPED, tr)
       else if
         FileHasAcceptableExtension (cstr (lastExtension path)) (lastExtension path).length = 0
        then HandleMIDI env path tr
       else retrieveTags env path tr) ∧
    (FileHasAcceptableExtension (cstr (lastExtension path)) (lastExtension path).length = -1 →
      (processFileInternal env path mime tr).1 = MediaScanResult.MEDIA_SCAN_RESULT_SKIPPED ∧
      (processFileInternal env path mime tr).2 = tr ∧
      eventsSince tr (processFileInternal env path mime tr).2 = []) := by
  obtain ⟨stem, hs⟩ := lastExtension_split path h
  have hn := lastExtension_no_dot path
  have hd := processFileInternal_dot env stem (lastExtension path) mime tr hn
  rw [← hs] at hd
  refine ⟨⟨stem, hs⟩, hn, hd, ?_⟩
  intro hc
  rw [hd, hc]
  simp [eventsSince]

theorem C12_classifies_last_extension_witness :
    0x2e ∈ bytesOf "/sdcard/a.b/notes.txt" ∧
    ((∃ stem, bytesOf "/sdcard/a.b/notes.txt" =
        stem ++ 0x2e :: lastExtension (bytesOf "/sdcard/a.b/notes.txt")) ∧
      0x2e ∉ lastExtension (bytesOf "/sdcard/a.b/notes.txt") ∧
      processFileInternal workingEnv (bytesOf "/sdcard/a.b/notes.txt") none [] =
        (if FileHasAcceptableExtension (cstr (lastExtension (bytesOf "/sdcard/a.b/notes.txt")))
            (lastExtension (bytesOf "/sdcard/a.b/notes.txt")).length < 0
          then (MediaScanResult.MEDIA_SCAN_RESULT_SKIPPED, [])
         else if
           FileHasAcceptableExtension (cstr (lastExtension (bytesOf "/sdcard/a.b/notes.txt")))
            (lastExtension (bytesOf "/sdcard/a.b/notes.txt")).length = 0
          then HandleMIDI workingEnv (bytesOf "/sdcard/a.b/notes.txt") []
         else retrieveTags workingEnv (bytesOf "/sdcard/a.b/notes.txt") []) ∧
      (FileHasAcceptableExtension (cstr (lastExtension (bytesOf "/sdcard/a.b/notes.txt")))
          (lastExtension (bytesOf "/sdcard/a.b/notes.txt")).length = -1 →
        (processFileInternal workingEnv (bytesOf "/sdcard/a.b/notes.txt") none []).1 =
          MediaScanResult.MEDIA_SCAN_RESULT_SKIPPED ∧
        (processFileInternal workingEnv (bytesOf "/sdcard/a.b/notes.txt") none []).2 = [] ∧
        eventsSince [] (processFileInternal workingEnv (bytesOf "/sdcard/a.b/notes.txt")
          none []).2 = [])) :=
  ⟨by decide, C12_classifies_last_extension workingEnv (bytesOf "/sdcard/a.b/notes.txt") none []
    (by decide)⟩

/-! ## Engine resources -/

theorem acquired_engineEvents (env : Env) (filename : List Nat) :
    acquired (engineEvents env filename) =
      (match env.EAS_Init.2 with
        | some d => [Resource.data d]
        | none => []) ++
      (if env.EAS_Init.1 = EAS_SUCCESS then
        (match (env.EAS_OpenFile filename).2 with
          | some h => [Resource.file h]
          | none => [])
       else []) := by
  unfold engineEvents acquired
  by_cases h1 : env.EAS_Init.1 = EAS_SUCCESS <;>
  by_cases h2 : (env.EAS_OpenFile filename).1 = EAS_SUCCESS <;>
  by_cases h3 : env.EAS_Prepare = EAS_SUCCESS <;>
  cases h5 : env.EAS_Init.2 <;>
  cases h6 : (env.EAS_OpenFile filename).2 <;>
  simp [h1, h2, h3, h5, h6, List.filterMap_cons, List.filterMap_append]

theorem released_engineEvents (env : Env) (filename : List Nat) :
    released (engineEvents env filename) =
      (if env.EAS_Init.1 = EAS_SUCCESS then
        (match (env.EAS_OpenFile filename).2 with
          | some h => [Resource.file h]
          | none => [])
       else []) ++
      (match env.EAS_Init.2 with
        | some d => [Resource.data d]
        | none => []) := by
  unfold engineEvents released
  by_cases h1 : env.EAS_Init.1 = EAS_SUCCESS <;>
  by_cases h2 : (env.EAS_OpenFile filename).1 = EAS_SUCCESS <;>
  by_cases h3 : env.EAS_Prepare = EAS_SUCCESS <;>
  cases h5 : env.EAS_Init.2 <;>
  cases h6 : (env.EAS_OpenFile filename).2 <;>
  simp [h1, h2, h3, h5, h6, List.filterMap_cons, List.filterMap_append]

/-- The events of one `HandleMIDI` call: the configuration query alone, or
the engine calls, followed by the duration tag when they all succeeded. -/
theorem HandleMIDI_new_events (env : Env) (filename : List Nat) (tr : List Event) :
    eventsSince tr (HandleMIDI env filename tr).2 = [Event.EAS_Config] ∨
    eventsSince tr (HandleMIDI env filename tr).2 = engineEvents env filename ∨
    ∃ value status, eventsSince tr (HandleMIDI env filename tr).2 =
      engineEvents env filename ++ [Event.addStringTag "duration" value status] := by
  by_cases hc : env.EAS_Config = some env.LIB_VERSION
  · rw [HandleMIDI_engine env filename tr hc]
    split
    · right; right
      exact ⟨_, _, by rw [List.append_assoc, eventsSince_append]⟩
    · right; left
      rw [eventsSince_append]
  · left
    rw [HandleMIDI_bad_config env filename tr hc, eventsSince_append]

theorem engineEvents_discipline (env : Env) (filename : List Nat) :
    released (engineEvents env filename) = (acquired (engineEvents env filename)).reverse ∧
    (∀ x ∈ acquired (engineEvents env filename),
      (released (engineEvents env filename)).count x = 1) ∧
    (∀ h d, Resource.file h ∈ acquired (engineEvents env filename) →
      Resource.data d ∈ acquired (engineEvents env filename) →
      acquired (engineEvents env filename) = [Resource.data d, Resource.file h] ∧
      released (engineEvents env filename) = [Resource.file h, Resource.data d]) := by
  rw [acquired_engineEvents, released_engineEvents]
  by_cases h1 : env.EAS_Init.1 = EAS_SUCCESS <;>
  cases h5 : env.EAS_Init.2 <;>
  cases h6 : (env.EAS_OpenFile filename).2 <;>
  simp [h1, List.count_cons]

/-- C13: on every exit path of `HandleMIDI` the engine resources released are
exactly the resources acquired, in reverse order of acquisition: each data
handle `EAS_Init` produced is shut down exactly once, each file handle
`EAS_OpenFile` produced is closed exactly once, and when both were produced
`EAS_CloseFile` comes before `EAS_Shutdown`. -/
theorem C13_resources_released_in_reverse (env : Env) (filename : List Nat)
    (tr : List Event) :
    released (eventsSince tr (HandleMIDI env filename tr).2) =
      (acquired (eventsSince tr (HandleMIDI env filename tr).2)).reverse ∧
    (∀ x ∈ acquired (eventsSince tr (HandleMIDI env filename tr).2),
      (released (eventsSince tr (HandleMIDI env filename tr).2)).count x = 1) ∧
    (∀ h d, Resource.file h ∈ acquired (eventsSince tr (HandleMIDI env filename tr).2) →
      Resource.data d ∈ acquired (eventsSince tr (HandleMIDI env filename tr).2) →
      acquired (eventsSince tr (HandleMIDI env filename tr).2) =
        [Resource.data d, Resource.file h] ∧
      released (eventsSince tr (HandleMIDI env filename tr).2) =
        [Resource.file h, Resource.data d]) := by
  rcases HandleMIDI_new_events env filename tr with h | h | ⟨value, status, h⟩
  · rw [h]
    simp [acquired, released]
  · rw [h]
    exact engineEvents_discipline env filename
  · have ha : acquired (engineEvents env filename ++
        [Event.addStringTag "duration" value status]) = acquired (engineEvents env filename) := by
      simp [acquired, List.filterMap_append]
    have hr : released (engineEvents env filename ++
        [Event.addStringTag "duration" value status]) = released (engineEvents env filename) := by
      simp [released, List.filterMap_append]
    rw [h, ha, hr]
    exact engineEvents_discipline env filename

theorem C13_resources_released_in_reverse_witness :
    released (eventsSince [] (HandleMIDI workingEnv (bytesOf "a.mid") []).2) =
      [Resource.file 2, Resource.data 1] :=
  ((C13_resources_released_in_reverse workingEnv (bytesOf "a.mid") []).2.2 2 1
    (by decide) (by decide)).2

/-! ## A rejected write ends the scan -/

theorem rejectedOnlyLast_nil (r : MediaScanResult) : rejectedOnlyLast [] r := by
  intro pre e post h
  simp at h

theorem rejectedOnlyLast_cons (a : Event) (l : List Event) (r : MediaScanResult)
    (ha : isRejectedWrite a = false) (hl : rejectedOnlyLast l r) :
    rejectedOnlyLast (a :: l) r := by
  intro pre e post h he
  match pre, h with
  | [], h =>
    simp only [List.nil_append, List.cons.injEq] at h
    rw [h.1, he] at ha
    exact absurd ha (by decide)
  | x :: pre, h =>
    simp only [List.cons_append, List.cons.injEq] at h
    exact hl pre e post h.2 he

theorem rejectedOnlyLast_single (a : Event) (r : MediaScanResult)
    (h : isRejectedWrite a = true → r = MediaScanResult.MEDIA_SCAN_RESULT_ERROR) :
    rejectedOnlyLast [a] r := by
  intro pre e post heq he
  match pre, heq with
  | [], heq =>
    simp only [List.nil_append, List.cons.injEq] at heq
    exact ⟨heq.2.symm, h (heq.1 ▸ he)⟩
  | x :: pre, heq =>
    simp at heq

theorem rejectedOnlyLast_append (l1 l2 : List Event) (r : MediaScanResult)
    (h1 : ∀ x ∈ l1, isRejectedWrite x = false) (h2 : rejectedOnlyLast l2 r) :
    rejectedOnlyLast (l1 ++ l2) r := by
  induction l1 with
  | nil => simpa using h2
  | cons a l ih =>
    exact rejectedOnlyLast_cons a (l ++ l2) r (h1 a (List.mem_cons_self _ _))
      (ih (fun x hx => h1 x (List.mem_cons_of_mem _ hx)))

theorem tagLoop_rejected (env : Env) :
    ∀ (l : List (String × MetadataKey)) (tr : List Event),
      ∃ new : List Event, (tagLoop env l tr).2 = tr ++ new ∧
        rejectedOnlyLast new (tagLoop env l tr).1
  | [], tr => ⟨[], by simp [tagLoop], rejectedOnlyLast_nil _⟩
  | (tag, key) :: rest, tr => by
    cases hv : env.extractMetadata key with
    | none =>
      obtain ⟨new, h1, h2⟩ := tagLoop_rejected env rest (tr ++ [Event.extractMetadata key none])
      refine ⟨Event.extractMetadata key none :: new, ?_, ?_⟩
      · simp only [tagLoop, hv, h1]
        simp
      · simp only [tagLoop, hv]
        exact rejectedOnlyLast_cons _ _ _ rfl h2
    | some v =>
      by_cases hs : env.addStringTag (tr ++ [Event.extractMetadata key (some v)]) tag v = OK
      · obtain ⟨new, h1, h2⟩ := tagLoop_rejected env rest
          (tr ++ [Event.extractMetadata key (some v)] ++ [Event.addStringTag tag v OK])
        refine ⟨Event.extractMetadata key (some v) :: Event.addStringTag tag v OK :: new,
          ?_, ?_⟩
        · simp only [tagLoop, hv, hs, ne_eq, not_true_eq_false, if_false, h1]
          simp
        · simp only [tagLoop, hv, hs, ne_eq, not_true_eq_false, if_false]
          exact rejectedOnlyLast_cons _ _ _ rfl (rejectedOnlyLast_cons _ _ _ rfl h2)
      · refine ⟨[Event.extractMetadata key (some v), Event.addStringTag tag v
          (env.addStringTag (tr ++ [Event.extractMetadata key (some v)]) tag v)], ?_, ?_⟩
        · simp [tagLoop, hv, hs]
        · simp only [tagLoop, hv, hs, ne_eq, not_false_eq_true, if_true]
          exact rejectedOnlyLast_cons _ _ _ rfl (rejectedOnlyLast_single _ _ (fun _ => rfl))

theorem forwardMetadata_rejected (env : Env) (tr : List Event) :
    ∃ new : List Event, (forwardMetadata env tr).2 = tr ++ new ∧
      rejectedOnlyLast new (forwardMetadata env tr).1 := by
  cases hv : env.extractMetadata MetadataKey.METADATA_KEY_MIMETYPE with
  | none =>
    obtain ⟨new, h1, h2⟩ := tagLoop_rejected env kKeyMap
      (tr ++ [Event.extractMetadata MetadataKey.METADATA_KEY_MIMETYPE none])
    refine ⟨Event.extractMetadata MetadataKey.METADATA_KEY_MIMETYPE none :: new, ?_, ?_⟩
    · simp only [forwardMetadata, hv, h1]
      simp
    · simp only [forwardMetadata, hv]
      exact rejectedOnlyLast_cons _ _ _ rfl h2
  | some v =>
    by_cases hs : env.setMimeType
        (tr ++ [Event.extractMetadata MetadataKey.METADATA_KEY_MIMETYPE (some v)]) v = 0
    · obtain ⟨new, h1, h2⟩ := tagLoop_rejected env kKeyMap
        (tr ++ [Event.extractMetadata MetadataKey.METADATA_KEY_MIMETYPE (some v)] ++
          [Event.setMimeType v 0])
      refine ⟨Event.extractMetadata MetadataKey.METADATA_KEY_MIMETYPE (some v) ::
        Event.setMimeType v 0 :: new, ?_, ?_⟩
      · simp only [forwardMetadata, hv, hs, ne_eq, not_true_eq_false, if_false, h1]
        simp
      · simp only [forwardMetadata, hv, hs, ne_eq, not_true_eq_false, if_false]
        exact rejectedOnlyLast_cons _ _ _ rfl (rejectedOnlyLast_cons _ _ _ rfl h2)
    · refine ⟨[Event.extractMetadata MetadataKey.METADATA_KEY_MIMETYPE (some v),
        Event.setMimeType v (env.setMimeType
          (tr ++ [Event.extractMetadata MetadataKey.METADATA_KEY_MIMETYPE (some v)]) v)],
        ?_, ?_⟩
      · simp [forwardMetadata, hv, hs]
      · simp only [forwardMetadata, hv, hs, ne_eq, not_false_eq_true, if_true]
        exact rejectedOnlyLast_cons _ _ _ rfl (rejectedOnlyLast_single _ _ (fun _ => rfl))

theorem retrieveTags_rejected (env : Env) (path : List Nat) (tr : List Event) :
    ∃ new : List Event, (retrieveTags env path tr).2 = tr ++ new ∧
      rejectedOnlyLast new (retrieveTags env path tr).1 := by
  by_cases hfd : env.sys_open path < 0
  · by_cases hst : env.setDataSourcePath path = 0
    · obtain ⟨new, h1, h2⟩ := forwardMetadata_rejected env
        (tr ++ [Event.newRetriever] ++ [Event.sys_open path (env.sys_open path)] ++
          [Event.setDataSourcePath path 0])
      refine ⟨Event.newRetriever :: Event.sys_open path (env.sys_open path) ::
        Event.setDataSourcePath path 0 :: new, ?_, ?_⟩
      · simp only [retrieveTags, hfd, hst, if_true, ne_eq, not_true_eq_false, if_false, h1]
        simp
      · simp only [retrieveTags, hfd, hst, if_true, ne_eq, not_true_eq_false, if_false]
        exact rejectedOnlyLast_cons _ _ _ rfl (rejectedOnlyLast_cons _ _ _ rfl
          (rejectedOnlyLast_cons _ _ _ rfl h2))
    · refine ⟨[Event.newRetriever, Event.sys_open path (env.sys_open path),
        Event.setDataSourcePath path (env.setDataSourcePath path)], ?_, ?_⟩
      · simp [retrieveTags, hfd, hst]
      · exact rejectedOnlyLast_cons _ _ _ rfl (rejectedOnlyLast_cons _ _ _ rfl
          (rejectedOnlyLast_cons _ _ _ rfl (rejectedOnlyLast_nil _)))
  · by_cases hst : env.setDataSourceFd (env.sys_open path) = 0
    · obtain ⟨new, h1, h2⟩ := forwardMetadata_rejected env
        (tr ++ [Event.newRetriever] ++ [Event.sys_open path (env.sys_open path)] ++
          [Event.setDataSourceFd (env.sys_open path) 0, Event.sys_close (env.sys_open path)])
      refine ⟨Event.newRetriever :: Event.sys_open path (env.sys_open path) ::
        Event.setDataSourceFd (env.sys_open path) 0 :: Event.sys_close (env.sys_open path) ::
        new, ?_, ?_⟩
      · simp only [retrieveTags, hfd, hst, if_true, ne_eq, not_true_eq_false, if_false, h1]
        simp
      · simp only [retrieveTags, hfd, hst, if_true, ne_eq, not_true_eq_false, if_false]
        exact rejectedOnlyLast_cons _ _ _ rfl (rejectedOnlyLast_cons _ _ _ rfl
          (rejectedOnlyLast_cons _ _ _ rfl (rejectedOnlyLast_cons _ _ _ rfl h2)))
    · refine ⟨[Event.newRetriever, Event.sys_open path (env.sys_open path),
        Event.setDataSourceFd (env.sys_open path) (env.setDataSourceFd (env.sys_open path)),
        Event.sys_close (env.sys_open path)], ?_, ?_⟩
      · simp [retrieveTags, hfd, hst]
      · exact rejectedOnlyLast_cons _ _ _ rfl (rejectedOnlyLast_cons _ _ _ rfl
          (rejectedOnlyLast_cons _ _ _ rfl (rejectedOnlyLast_cons _ _ _ rfl
            (rejectedOnlyLast_nil _))))

theorem isRejectedWrite_of_engine (e : Event) (h : isEngineCall e = true) :
    isRejectedWrite e = false := by
  cases e <;> simp_all [isEngineCall, isRejectedWrite]

theorem HandleMIDI_rejected (env : Env) (filename : List Nat) (tr : List Event) :
    ∃ new : List Event, (HandleMIDI env filename tr).2 = tr ++ new ∧
      rejectedOnlyLast new (HandleMIDI env filename tr).1 := by
  have he : ∀ x ∈ engineEvents env filename, isRejectedWrite x = false :=
    fun x hx => isRejectedWrite_of_engine x (engineEvents_engine env filename x hx)
  by_cases hc : env.EAS_Config = some env.LIB_VERSION
  · rw [HandleMIDI_engine env filename tr hc]
    split
    · refine ⟨engineEvents env filename ++ [Event.addStringTag "duration"
        (sprintf_ld env.EAS_ParseMetaData.2)
        (env.addStringTag (tr ++ engineEvents env filename) "duration"
          (sprintf_ld env.EAS_ParseMetaData.2))], by simp, ?_⟩
      apply rejectedOnlyLast_append _ _ _ he
      apply rejectedOnlyLast_single
      intro hr
      have hne : env.addStringTag (tr ++ engineEvents env filename) "duration"
          (sprintf_ld env.EAS_ParseMetaData.2) ≠ OK := by
        simpa [isRejectedWrite, OK] using hr
      simp [hne]
    · refine ⟨engineEvents env filename, rfl, ?_⟩
      have := rejectedOnlyLast_append (engineEvents env filename) []
        MediaScanResult.MEDIA_SCAN_RESULT_SKIPPED he (rejectedOnlyLast_nil _)
      simpa using this
  · rw [HandleMIDI_bad_config env filename tr hc]
    exact ⟨[Event.EAS_Config], rfl,
      rejectedOnlyLast_cons _ _ _ rfl (rejectedOnlyLast_nil _)⟩

theorem processFileInternal_rejected (env : Env) (path : List Nat)
    (mime : Option (List Nat)) (tr : List Event) :
    ∃ new : List Event, (processFileInternal env path mime tr).2 = tr ++ new ∧
      rejectedOnlyLast new (processFileInternal env path mime tr).1 := by
  unfold processFileInternal
  simp only []
  split
  · exact ⟨[], by simp, rejectedOnlyLast_nil _⟩
  · split
    · exact ⟨[], by simp, rejectedOnlyLast_nil _⟩
    · split
      · exact HandleMIDI_rejected env path tr
      · exact retrieveTags_rejected env path tr

/-- C14: a sink failure is fatal and aborts the scan of the file. In
`processFileInternal`, once a `setMimeType` or `addStringTag` call is
rejected, that call is the last event of the scan (so no further
`setMimeType` or `addStringTag` call is made), the events before it stay in
the trace, and the result is ERROR. -/
theorem C14_sink_failure_aborts (env : Env) (path : List Nat) (mime : Option (List Nat))
    (tr : List Event) (pre post : List Event) (e : Event)
    (hsplit : eventsSince tr (processFileInternal env path mime tr).2 = pre ++ e :: post)
    (hrej : isRejectedWrite e = true) :
    post = [] ∧ (∀ x ∈ post, isTagCall x = false) ∧
    (processFileInternal env path mime tr).2 = tr ++ pre ++ [e] ∧
    (processFileInternal env path mime tr).1 = MediaScanResult.MEDIA_SCAN_RESULT_ERROR := by
  obtain ⟨new, h1, h2⟩ := processFileInternal_rejected env path mime tr
  rw [h1, eventsSince_append] at hsplit
  have h := h2 pre e post hsplit hrej
  refine ⟨h.1, ?_, ?_, h.2⟩
  · rw [h.1]
    simp
  · rw [h1, hsplit, h.1, List.append_assoc]

theorem C14_sink_failure_aborts_witness :
    ([] : List Event) = [] ∧ (∀ x ∈ ([] : List Event), isTagCall x = false) ∧
    (processFileInternal rejectingEnv (bytesOf "a.mp3") none []).2 =
      [] ++
        [Event.newRetriever, Event.sys_open (bytesOf "a.mp3") 3, Event.setDataSourceFd 3 0,
          Event.sys_close 3,
          Event.extractMetadata MetadataKey.METADATA_KEY_MIMETYPE none,
          Event.extractMetadata MetadataKey.METADATA_KEY_CD_TRACK_NUMBER none,
          Event.extractMetadata MetadataKey.METADATA_KEY_DISC_NUMBER none,
          Event.extractMetadata MetadataKey.METADATA_KEY_ALBUM none,
          Event.extractMetadata MetadataKey.METADATA_KEY_ARTIST (some "Band"),
          Event.addStringTag "artist" "Band" 0,
          Event.extractMetadata MetadataKey.METADATA_KEY_ALBUMARTIST none,
          Event.extractMetadata MetadataKey.METADATA_KEY_COMPOSER none,
          Event.extractMetadata MetadataKey.METADATA_KEY_GENRE none,
          Event.extractMetadata MetadataKey.METADATA_KEY_TITLE (some "Song")] ++
        [Event.addStringTag "title" "Song" (-1)] ∧
    (processFileInternal rejectingEnv (bytesOf "a.mp3") none []).1 =
      MediaScanResult.MEDIA_SCAN_RESULT_ERROR :=
  C14_sink_failure_aborts rejectingEnv (bytesOf "a.mp3") none []
    [Event.newRetriever, Event.sys_open (bytesOf "a.mp3") 3, Event.setDataSourceFd 3 0,
      Event.sys_close 3,
      Event.extractMetadata MetadataKey.METADATA_KEY_MIMETYPE none,
      Event.extractMetadata MetadataKey.METADATA_KEY_CD_TRACK_NUMBER none,
      Event.extractMetadata MetadataKey.METADATA_KEY_DISC_NUMBER none,
      Event.extractMetadata MetadataKey.METADATA_KEY_ALBUM none,
      Event.extractMetadata MetadataKey.METADATA_KEY_ARTIST (some "Band"),
      Event.addStringTag "artist" "Band" 0,
      Event.extractMetadata MetadataKey.METADATA_KEY_ALBUMARTIST none,
      Event.extractMetadata MetadataKey.METADATA_KEY_COMPOSER none,
      Event.extractMetadata MetadataKey.METADATA_KEY_GENRE none,
      Event.extractMetadata MetadataKey.METADATA_KEY_TITLE (some "Song")]
    [] (Event.addStringTag "title" "Song" (-1)) (by decide) (by decide)

/-! ## Entries with a digit -/

theorem digitVariant_facts : ∀ (s ext : List Nat), digitVariant s ext = true →
    (∀ c ∈ s, (c < 65 ∨ (97 ≤ c ∧ c ≤ 122)) ∧ c < 256) →
    ext.length = s.length ∧ (∀ x ∈ ext, x < 256) ∧
      (s.any isDigit = true → (ext.map asciiLower).any isDigit = true)
  | [], [], _, _ => by simp
  | [], _ :: _, h, _ => by simp [digitVariant] at h
  | _ :: _, [], h, _ => by simp [digitVariant] at h
  | c :: s, x :: ext, h, hs => by
    simp only [digitVariant, Bool.and_eq_true] at h
    have ih := digitVariant_facts s ext h.2 (fun c hc => hs c (List.mem_cons_of_mem _ hc))
    have hc := hs c (List.mem_cons_self _ _)
    have hx : x < 256 ∧ (isDigit c = true → isDigit (asciiLower x) = true) := by
      have h1 := h.1
      by_cases hd : isDigit c = true
      · rw [if_pos hd] at h1
        simp only [isDigit, Bool.and_eq_true, decide_eq_true_eq] at h1 hd ⊢
        unfold asciiLower
        split <;> omega
      · rw [if_neg hd] at h1
        simp only [caseVariantByte, Bool.and_eq_true, Bool.or_eq_true, beq_iff_eq,
          decide_eq_true_eq] at h1
        exact ⟨by omega, fun h' => absurd h' hd⟩
    refine ⟨by simp [ih.1], ?_, ?_⟩
    · intro y hy
      rcases List.mem_cons.1 hy with rfl | hy
      · exact hx.1
      · exact ih.2.1 y hy
    · intro hany
      simp only [List.any_cons, Bool.or_eq_true] at hany
      simp only [List.map_cons, List.any_cons, Bool.or_eq_true]
      rcases hany with h' | h'
      · exact Or.inl (hx.2 h')
      · exact Or.inr (ih.2.2 h')

theorem numericEntries_facts : ∀ s ∈ numericEntries,
    (∀ c ∈ bytesOf s, (c < 65 ∨ (97 ≤ c ∧ c ≤ 122)) ∧ c < 256) ∧
      (bytesOf s).any isDigit = true ∧ (bytesOf s).length ≤ 4 ∧
      bytesOf s ∈ numericEntries.map bytesOf := by
  decide

theorem specOther_with_digit : ∀ y ∈ specOther.map bytesOf,
    y.any isDigit = true → y.length ≤ 4 → y ∈ numericEntries.map bytesOf := by
  decide

theorem numericEntries_other : ∀ y ∈ numericEntries.map bytesOf, y ∈ specOther.map bytesOf := by
  decide

theorem specMIDI_no_digit : ∀ y ∈ specMIDI.map bytesOf, y.any isDigit = false := by
  decide

/-- C15, as stated, fails: "mp5" has the letters of the entry mp3 and a
decimal digit in its digit position, and is not classified as
other-recognized. -/
theorem C15_counterexample :
    ¬ ("mp3" ∈ numericEntries → digitVariant (bytesOf "mp3") (bytesOf "mp5") = true →
        FileHasAcceptableExtension (cstr (bytesOf "mp5")) (bytesOf "mp5").length = 1) := by
  decide

/-- C15, amended: for the entries of length 3 and 4 that hold a digit (3g2,
3gp, m4a, mp4, mp3, 3gpp) the mask step folds the case of the letters only and
the digit is compared exactly. An extension of that length that matches an
entry's letters up to ASCII case and has a decimal digit in the entry's digit
position is classified as 1 exactly when, lower-cased, it is one of these six
entries, and as -1 otherwise; in particular every case variant of an entry
itself is classified as 1. -/
theorem C15_digit_compared_exactly (s : String) (ext : List Nat) (hs : s ∈ numericEntries)
    (hv : digitVariant (bytesOf s) ext = true) :
    (FileHasAcceptableExtension (cstr ext) ext.length = 1 ↔
      ext.map asciiLower ∈ numericEntries.map bytesOf) ∧
    (ext.map asciiLower ∉ numericEntries.map bytesOf →
      FileHasAcceptableExtension (cstr ext) ext.length = -1) ∧
    (caseVariant (bytesOf s) ext = true →
      FileHasAcceptableExtension (cstr ext) ext.length = 1) := by
  have hf := numericEntries_facts s hs
  have hd := digitVariant_facts (bytesOf s) ext hv hf.1
  have hc := classify_spec ext hd.2.1
  have hdig := hd.2.2 hf.2.1
  have hlen : (ext.map asciiLower).length ≤ 4 := by
    rw [List.length_map, hd.1]
    exact hf.2.2.1
  have hiff : FileHasAcceptableExtension (cstr ext) ext.length = 1 ↔
      ext.map asciiLower ∈ numericEntries.map bytesOf :=
    hc.2.2.1.trans ⟨fun h => specOther_with_digit _ h hdig hlen, numericEntries_other _⟩
  refine ⟨hiff, ?_, ?_⟩
  · intro hn
    apply hc.2.2.2
    · intro hm
      have := specMIDI_no_digit _ hm
      rw [hdig] at this
      exact absurd this (by decide)
    · intro ho
      exact hn (specOther_with_digit _ ho hdig hlen)
  · intro hcv
    have hl := caseVariant_lower _ _ hcv hf.1
    exact hiff.2 (by rw [hl.1]; exact hf.2.2.2)

theorem C15_digit_compared_exactly_witness :
    ("mp3" ∈ numericEntries ∧ digitVariant (bytesOf "mp3") (bytesOf "Mp5") = true) ∧
    ((FileHasAcceptableExtension (cstr (bytesOf "Mp5")) (bytesOf "Mp5").length = 1 ↔
        (bytesOf "Mp5").map asciiLower ∈ numericEntries.map bytesOf) ∧
      ((bytesOf "Mp5").map asciiLower ∉ numericEntries.map bytesOf →
        FileHasAcceptableExtension (cstr (bytesOf "Mp5")) (bytesOf "Mp5").length = -1) ∧
      (caseVariant (bytesOf "mp3") (bytesOf "Mp5") = true →
        FileHasAcceptableExtension (cstr (bytesOf "Mp5")) (bytesOf "Mp5").length = 1)) :=
  ⟨by decide, C15_digit_compared_exactly "mp3" (bytesOf "Mp5") (by decide) (by decide)⟩

/-! ## The groups are disjoint -/

/-- For `len` 3 and 4 the code is the search in the order numeric, alpha,
MIDI. -/
theorem code_order_search (tbl extension : List Nat) (len : Int) (h : len = 3 ∨ len = 4) :
    FileHasAcceptableExtensionOn tbl extension len =
      searchGroups tbl extension len [Group.numeric, Group.alpha, Group.midi] := by
  rcases h with h | h <;> subst h <;>
  simp only [FileHasAcceptableExtensionOn, searchGroups, groupMatches, groupBase, List.find?] <;>
  simp <;>
  split_ifs <;> simp_all [groupClass]

/-- For `len` 5 the code is the first test, then the second. -/
theorem code_order_five (tbl extension : List Nat) :
    FileHasAcceptableExtensionOn tbl extension 5 =
      if test3gpp2 tbl extension = true then 1
      else if testRtttl tbl extension = true then 0 else -1 := by
  simp [FileHasAcceptableExtensionOn, test3gpp2, testRtttl]

theorem groupMatches3 (a b c : Nat) (rest : List Nat) (ha : a < 256) (hb : b < 256)
    (hc : c < 256) :
    (groupMatches kValidExtensions (a :: b :: c :: 0 :: rest) 3 Group.numeric = true ↔
      [a, b, c].map asciiLower ∈ grp3N) ∧
    (groupMatches kValidExtensions (a :: b :: c :: 0 :: rest) 3 Group.alpha = true ↔
      [a, b, c].map asciiLower ∈ grp3A) ∧
    (groupMatches kValidExtensions (a :: b :: c :: 0 :: rest) 3 Group.midi = true ↔
      [a, b, c].map asciiLower ∈ grp3M) := by
  simp only [grp3N_bytes, grp3A_bytes, grp3M_bytes]
  refine ⟨?_, ?_, ?_⟩ <;>
  simp [groupMatches, groupBase, size2, size3, size4,
    num2, num3MIDI, num3NonMIDIA, num3NonMIDIN, scanMasked, scan32, rd32_zero,
    masked_eq_iff, lowered_eq_iff, ha, hb, hc, lor32_letter, asciiLower_nonletter]

theorem groupMatches4 (a b c d : Nat) (rest : List Nat) (ha : a < 256) (hb : b < 256)
    (hc : c < 256) (hd : d < 256) :
    (groupMatches kValidExtensions (a :: b :: c :: d :: rest) 4 Group.numeric = true ↔
      [a, b, c, d].map asciiLower ∈ grp4N) ∧
    (groupMatches kValidExtensions (a :: b :: c :: d :: rest) 4 Group.alpha = true ↔
      [a, b, c, d].map asciiLower ∈ grp4A) ∧
    (groupMatches kValidExtensions (a :: b :: c :: d :: rest) 4 Group.midi = true ↔
      [a, b, c, d].map asciiLower ∈ grp4M) := by
  simp only [grp4N_bytes, grp4A_bytes, grp4M_bytes]
  refine ⟨?_, ?_, ?_⟩ <;>
  simp [groupMatches, groupBase, size2, size3, size4,
    num2, num3MIDI, num3NonMIDIA, num3NonMIDIN, num4MIDI, num4NonMIDIA, num4NonMIDIN,
    scanMasked, scan32, rd32_zero,
    masked_eq_iff, lowered_eq_iff, ha, hb, hc, hd, lor32_letter, asciiLower_nonletter]

theorem tests5 (a b c d e : Nat) (rest : List Nat) (ha : a < 256) (hb : b < 256)
    (hc : c < 256) (hd : d < 256) (he : e < 256) :
    (test3gpp2 kValidExtensions (a :: b :: c :: d :: e :: rest) = true ↔
      [a, b, c, d, e].map asciiLower = bytesOf "3gpp2") ∧
    (testRtttl kValidExtensions (a :: b :: c :: d :: e :: rest) = true ↔
      [a, b, c, d, e].map asciiLower = bytesOf "rtttl") := by
  have h1 : bytesOf "3gpp2" = [51, 103, 112, 112, 50] := by decide
  have h2 : bytesOf "rtttl" = [114, 116, 116, 116, 108] := by decide
  simp only [h1, h2]
  refine ⟨?_, ?_⟩ <;>
  simp [test3gpp2, testRtttl, size2, size3, size4,
    num2, num3MIDI, num3NonMIDIA, num3NonMIDIN, num4MIDI, num4NonMIDIA, num4NonMIDIN,
    rd32_zero, byteAt_four,
    masked_eq_iff, lowered_eq_iff, ha, hb, hc, hd, he, lor32_letter, asciiLower_nonletter,
    and_assoc]

theorem grp3_disjoint : ∀ y : List Nat,
    (y ∈ grp3N → y ∉ grp3A ∧ y ∉ grp3M) ∧ (y ∈ grp3A → y ∉ grp3M) := by
  intro y
  have h1 : ∀ y ∈ grp3N, y ∉ grp3A ∧ y ∉ grp3M := by decide
  have h2 : ∀ y ∈ grp3A, y ∉ grp3M := by decide
  exact ⟨h1 y, h2 y⟩

theorem grp4_disjoint : ∀ y : List Nat,
    (y ∈ grp4N → y ∉ grp4A ∧ y ∉ grp4M) ∧ (y ∈ grp4A → y ∉ grp4M) := by
  intro y
  have h1 : ∀ y ∈ grp4N, y ∉ grp4A ∧ y ∉ grp4M := by decide
  have h2 : ∀ y ∈ grp4A, y ∉ grp4M := by decide
  exact ⟨h1 y, h2 y⟩

/-- When at most one element satisfies `p`, the first match does not depend
on the order of the list. -/
theorem find_perm_of_unique {α : Type} (p : α → Bool)
    (hu : ∀ x y, p x = true → p y = true → x = y) (l1 l2 : List α) (hp : l1.Perm l2) :
    l1.find? p = l2.find? p := by
  cases h1 : l1.find? p with
  | none =>
    cases h2 : l2.find? p with
    | none => rfl
    | some y =>
      have hy := List.find?_some h2
      have hm := hp.symm.subset (List.mem_of_find?_eq_some h2)
      rw [List.find?_eq_none] at h1
      exact absurd hy (h1 y hm)
  | some x =>
    have hx := List.find?_some h1
    have hm := hp.subset (List.mem_of_find?_eq_some h1)
    cases h2 : l2.find? p with
    | none =>
      rw [List.find?_eq_none] at h2
      exact absurd hx (h2 x hm)
    | some y =>
      have hy := List.find?_some h2
      rw [hu x y hx hy]

theorem groups_unique_of_disjoint (m : Group → Bool) (y : List Nat) (N A M : List (List Nat))
    (hN : m Group.numeric = true ↔ y ∈ N) (hA : m Group.alpha = true ↔ y ∈ A)
    (hM : m Group.midi = true ↔ y ∈ M)
    (hd : (y ∈ N → y ∉ A ∧ y ∉ M) ∧ (y ∈ A → y ∉ M)) :
    ∀ g1 g2, m g1 = true → m g2 = true → g1 = g2 := by
  intro g1 g2 h1 h2
  cases g1 <;> cases g2 <;> first
    | rfl
    | (exfalso
       simp only [hN, hA, hM] at h1 h2
       first
         | exact (hd.1 h1).1 h2
         | exact (hd.1 h1).2 h2
         | exact (hd.1 h2).1 h1
         | exact (hd.1 h2).2 h1
         | exact hd.2 h1 h2
         | exact hd.2 h2 h1)

theorem searchGroups_perm (tbl extension : List Nat) (len : Int)
    (hu : ∀ g1 g2, groupMatches tbl extension len g1 = true →
      groupMatches tbl extension len g2 = true → g1 = g2)
    (order : List Group) (hp : order.Perm [Group.numeric, Group.alpha, Group.midi]) :
    searchGroups tbl extension len order =
      searchGroups tbl extension len [Group.numeric, Group.alpha, Group.midi] := by
  unfold searchGroups
  rw [find_perm_of_unique _ hu order _ hp]

/-- C16: the groups searched by `FileHasAcceptableExtension` are mutually
exclusive. For every extension of length 3 (bytes `a b c`, then the NUL) and
of length 4 (bytes `a b c d`) at most one of the numeric, alphabetic and MIDI
groups holds a matching entry, and the search gives the result of the code for
every order of the three groups; for length 5 (bytes `a b c d e`) the two
tests never both succeed, and either order of them gives the result of the
code. -/
theorem C16_groups_mutually_exclusive (a b c d e : Nat) (rest : List Nat)
    (ha : a < 256) (hb : b < 256) (hc : c < 256) (hd : d < 256) (he : e < 256) :
    ((∀ g1 g2, groupMatches kValidExtensions (a :: b :: c :: 0 :: rest) 3 g1 = true →
        groupMatches kValidExtensions (a :: b :: c :: 0 :: rest) 3 g2 = true → g1 = g2) ∧
      (∀ order : List Group, order.Perm [Group.numeric, Group.alpha, Group.midi] →
        searchGroups kValidExtensions (a :: b :: c :: 0 :: rest) 3 order =
          FileHasAcceptableExtension (a :: b :: c :: 0 :: rest) 3)) ∧
    ((∀ g1 g2, groupMatches kValidExtensions (a :: b :: c :: d :: rest) 4 g1 = true →
        groupMatches kValidExtensions (a :: b :: c :: d :: rest) 4 g2 = true → g1 = g2) ∧
      (∀ order : List Group, order.Perm [Group.numeric, Group.alpha, Group.midi] →
        searchGroups kValidExtensions (a :: b :: c :: d :: rest) 4 order =
          FileHasAcceptableExtension (a :: b :: c :: d :: rest) 4)) ∧
    (¬ (test3gpp2 kValidExtensions (a :: b :: c :: d :: e :: rest) = true ∧
        testRtttl kValidExtensions (a :: b :: c :: d :: e :: rest) = true) ∧
      (if test3gpp2 kValidExtensions (a :: b :: c :: d :: e :: rest) = true then 1
        else if testRtttl kValidExtensions (a :: b :: c :: d :: e :: rest) = true then 0
        else -1) = FileHasAcceptableExtension (a :: b :: c :: d :: e :: rest) 5 ∧
      (if testRtttl kValidExtensions (a :: b :: c :: d :: e :: rest) = true then 0
        else if test3gpp2 kValidExtensions (a :: b :: c :: d :: e :: rest) = true then 1
        else -1) = FileHasAcceptableExtension (a :: b :: c :: d :: e :: rest) 5) := by
  have g3 := groupMatches3 a b c rest ha hb hc
  have u3 := groups_unique_of_disjoint
    (groupMatches kValidExtensions (a :: b :: c :: 0 :: rest) 3) _ _ _ _ g3.1 g3.2.1 g3.2.2
    (grp3_disjoint _)
  have g4 := groupMatches4 a b c d rest ha hb hc hd
  have u4 := groups_unique_of_disjoint
    (groupMatches kValidExtensions (a :: b :: c :: d :: rest) 4) _ _ _ _ g4.1 g4.2.1 g4.2.2
    (grp4_disjoint _)
  have t5 := tests5 a b c d e rest ha hb hc hd he
  have x5 : ¬ (test3gpp2 kValidExtensions (a :: b :: c :: d :: e :: rest) = true ∧
      testRtttl kValidExtensions (a :: b :: c :: d :: e :: rest) = true) := by
    rw [t5.1, t5.2]
    rintro ⟨h1, h2⟩
    rw [h1] at h2
    exact absurd h2 (by decide)
  refine ⟨⟨u3, ?_⟩, ⟨u4, ?_⟩, x5, ?_, ?_⟩
  · intro order hp
    rw [searchGroups_perm _ _ _ u3 order hp]
    exact (code_order_search _ _ 3 (Or.inl rfl)).symm
  · intro order hp
    rw [searchGroups_perm _ _ _ u4 order hp]
    exact (code_order_search _ _ 4 (Or.inr rfl)).symm
  · exact (code_order_five _ _).symm
  · have h5 : FileHasAcceptableExtension (a :: b :: c :: d :: e :: rest) 5 = _ :=
      code_order_five kValidExtensions (a :: b :: c :: d :: e :: rest)
    rw [h5]
    by_cases q1 : test3gpp2 kValidExtensions (a :: b :: c :: d :: e :: rest) = true <;>
    by_cases q2 : testRtttl kValidExtensions (a :: b :: c :: d :: e :: rest) = true
    · exact absurd ⟨q1, q2⟩ x5
    · simp [q1, q2]
    · simp [q1, q2]
    · simp [q1, q2]

theorem C16_groups_mutually_exclusive_witness :
    searchGroups kValidExtensions (cstr (bytesOf "Mp3")) 3
        [Group.midi, Group.alpha, Group.numeric] =
      FileHasAcceptableExtension (cstr (bytesOf "Mp3")) 3 :=
  (C16_groups_mutually_exclusive (Char.toNat 'M') (Char.toNat 'p') (Char.toNat '3') 0 0 []
    (by decide) (by decide) (by decide) (by decide) (by decide)).1.2
    [Group.midi, Group.alpha, Group.numeric] (by decide)

/-! ## Table reads -/

theorem scan16Log_spec (tbl : List Nat) (base x : Nat) : ∀ n,
    (scan16Log tbl base x n).1 = scan16 tbl base x n ∧
    (scan16Log tbl base x n).2 <+: desc16 base n ∧
    ((scan16Log tbl base x n).1 = false → (scan16Log tbl base x n).2 = desc16 base n)
  | 0 => by simp [scan16Log, scan16, desc16]
  | n + 1 => by
    have ih := scan16Log_spec tbl base x n
    by_cases h : x = rd16 tbl (base + n)
    · simp [scan16Log, scan16, desc16, h]
    · simp only [scan16Log, scan16, desc16, h, if_false]
      exact ⟨ih.1, (List.prefix_cons_inj _).2 ih.2.1, fun hf => by rw [ih.2.2 hf]⟩

theorem scan32Log_spec (tbl : List Nat) (base x : Nat) : ∀ n,
    (scan32Log tbl base x n).1 = scan32 tbl base x n ∧
    (scan32Log tbl base x n).2 <+: desc32 base n ∧
    ((scan32Log tbl base x n).1 = false → (scan32Log tbl base x n).2 = desc32 base n)
  | 0 => by simp [scan32Log, scan32, desc32]
  | n + 1 => by
    have ih := scan32Log_spec tbl base x n
    by_cases h : x = rd32 tbl (base + n)
    · simp [scan32Log, scan32, desc32, h]
    · simp only [scan32Log, scan32, desc32, h, if_false]
      exact ⟨ih.1, (List.prefix_cons_inj _).2 ih.2.1, fun hf => by rw [ih.2.2 hf]⟩

theorem scanMaskedLog_spec (tbl : List Nat) (base x : Nat) : ∀ n,
    (scanMaskedLog tbl base x n).1 = scanMasked tbl base x n ∧
    (scanMaskedLog tbl base x n).2 <+: descMasked base n ∧
    ((scanMaskedLog tbl base x n).1 = false →
      (scanMaskedLog tbl base x n).2 = descMasked base n)
  | 0 => by simp [scanMaskedLog, scanMasked, descMasked]
  | n + 1 => by
    have ih := scanMaskedLog_spec tbl base x n
    by_cases h : x ||| rd32 tbl (base + 2 * n) = rd32 tbl (base + 2 * n + 1)
    · simp only [scanMaskedLog, scanMasked, descMasked, h, if_true, true_and]
      refine ⟨?_, fun hf => absurd hf (by decide)⟩
      exact (List.prefix_cons_inj _).2 ((List.prefix_cons_inj _).2 (List.nil_prefix))
    · simp only [scanMaskedLog, scanMasked, descMasked, h, if_false]
      exact ⟨ih.1, (List.prefix_cons_inj _).2 ((List.prefix_cons_inj _).2 ih.2.1),
        fun hf => by rw [ih.2.2 hf]⟩

/-- The logged classifier returns what the classifier returns. -/
theorem log_result (tbl extension : List Nat) (len : Int) :
    (FileHasAcceptableExtensionLog tbl extension len).1 =
      FileHasAcceptableExtensionOn tbl extension len := by
  unfold FileHasAcceptableExtensionLog FileHasAcceptableExtensionOn
  simp only [(scan16Log_spec _ _ _ _).1, (scan32Log_spec _ _ _ _).1,
    (scanMaskedLog_spec _ _ _ _).1]
  split_ifs <;> rfl

theorem prefix_step (l1 f1 l2 rest : List TableRead) (h1 : l1 = f1) (h2 : l2 <+: rest) :
    l1 ++ l2 <+: f1 ++ rest := by
  rw [h1]
  exact (List.prefix_append_right_inj f1).2 h2

/-- The reads of a search of length 3 or 4 are an initial part of the scan
order, and all of it when nothing matches. -/
theorem log_reads_34 (tbl extension : List Nat) (len : Int) (h : len = 3 ∨ len = 4) :
    (FileHasAcceptableExtensionLog tbl extension len).2 <+: scanOrder len ∧
    ((FileHasAcceptableExtensionLog tbl extension len).1 = -1 →
      (FileHasAcceptableExtensionLog tbl extension len).2 = scanOrder len) := by
  have h2 : ¬ (len < 2 ∨ len > 5) := by omega
  have h3 : ¬ len = 2 := by omega
  have h5 : ¬ len = 5 := by omega
  unfold FileHasAcceptableExtensionLog
  simp only [h2, h3, h5, if_false]
  generalize hbN : (if len = 3 then size2 + size3 - num3NonMIDIN * 2
    else size2 + size3 + size4 - num4NonMIDIN * 2) = bN
  generalize hpN : (if len = 3 then num3NonMIDIN else num4NonMIDIN) = pN
  generalize hcA : (if len = 3 then num3NonMIDIA else num4NonMIDIA) = cA
  generalize hcM : (if len = 3 then num3MIDI else num4MIDI) = cM
  have hso : scanOrder len = descMasked bN pN ++ desc32 (bN - cA) cA ++
      desc32 (bN - cA - cM) cM := by
    rcases h with h | h <;> subst h <;> subst hbN <;> subst hpN <;> subst hcA <;> subst hcM <;>
      rfl
  rw [hso]
  have sN := scanMaskedLog_spec tbl bN (rd32 extension 0) pN
  have sA := scan32Log_spec tbl (bN - cA) (rd32 extension 0 ||| 0x20202020) cA
  have sM := scan32Log_spec tbl (bN - cA - cM) (rd32 extension 0 ||| 0x20202020) cM
  cases hN : (scanMaskedLog tbl bN (rd32 extension 0) pN).1 with
  | true =>
    simp only [if_true]
    refine ⟨?_, fun hf => absurd hf (by decide)⟩
    rw [List.append_assoc]
    exact sN.2.1.trans (List.prefix_append _ _)
  | false =>
    have eN := sN.2.2 hN
    cases hA : (scan32Log tbl (bN - cA) (rd32 extension 0 ||| 0x20202020) cA).1 with
    | true =>
      simp only [if_true, Bool.false_eq_true, if_false]
      refine ⟨?_, fun hf => absurd hf (by decide)⟩
      rw [List.append_assoc]
      exact prefix_step _ _ _ _ eN (sA.2.1.trans (List.prefix_append _ _))
    | false =>
      have eA := sA.2.2 hA
      simp only [Bool.false_eq_true, if_false]
      refine ⟨?_, ?_⟩
      · rw [List.append_assoc, List.append_assoc]
        exact prefix_step _ _ _ _ eN (prefix_step _ _ _ _ eA sM.2.1)
      · intro hf
        cases hM : (scan32Log tbl (bN - cA - cM) (rd32 extension 0 ||| 0x20202020) cM).1 with
        | true =>
          rw [hM] at hf
          exact absurd hf (by decide)
        | false => rw [eN, eA, sM.2.2 hM]

theorem log_reads_2 (tbl extension : List Nat) :
    (FileHasAcceptableExtensionLog tbl extension 2).2 <+: scanOrder 2 ∧
    ((FileHasAcceptableExtensionLog tbl extension 2).1 = -1 →
      (FileHasAcceptableExtensionLog tbl extension 2).2 = scanOrder 2) := by
  have s := scan16Log_spec tbl 0 (rd16 extension 0 ||| 0x2020) num2
  have hso : scanOrder 2 = desc16 0 num2 := rfl
  rw [hso]
  simp only [FileHasAcceptableExtensionLog, show ¬ ((2 : Int) < 2 ∨ (2 : Int) > 5) by decide,
    if_false, if_true]
  refine ⟨s.2.1, ?_⟩
  intro hf
  cases hb : (scan16Log tbl 0 (rd16 extension 0 ||| 0x2020) num2).1 with
  | true =>
    rw [hb] at hf
    exact absurd hf (by decide)
  | false => exact s.2.2 hb

theorem log_reads_5 (tbl extension : List Nat) :
    (FileHasAcceptableExtensionLog tbl extension 5).2 <+: scanOrder 5 ∧
    ((FileHasAcceptableExtensionLog tbl extension 5).1 = -1 →
      (FileHasAcceptableExtensionLog tbl extension 5).2 = scanOrder 5) := by
  have hso : scanOrder 5 =
      [TableRead.w32 ((size2 + size3 + size4) - 1 * 2 + 0),
       TableRead.w32 ((size2 + size3 + size4) - 1 * 2 + 1),
       TableRead.w32 ((size2 + size3 + size4) - 1 * 2 + 3)] := rfl
  rw [hso]
  simp only [FileHasAcceptableExtensionLog, show ¬ ((5 : Int) < 2 ∨ (5 : Int) > 5) by decide,
    show ¬ ((5 : Int) = 2) by decide, if_false, if_true]
  split_ifs
  · refine ⟨?_, fun hf => absurd hf (by decide)⟩
    exact ⟨[_], rfl⟩
  · exact ⟨List.prefix_refl _, fun _ => rfl⟩
  · exact ⟨List.prefix_refl _, fun _ => rfl⟩

theorem scanOrder_explicit :
    scanOrder 2 = [TableRead.w16 1, TableRead.w16 0] ∧
    scanOrder 3 =
      [25, 26, 23, 24, 21, 22, 19, 20, 17, 18].map TableRead.w32 ++
      [16, 15, 14, 13, 12, 11, 10, 9, 8, 7].map TableRead.w32 ++
      [6, 5, 4, 3, 2, 1].map TableRead.w32 ∧
    scanOrder 4 =
      [33, 34].map TableRead.w32 ++ [32, 31, 30, 29].map TableRead.w32 ++
      [28, 27].map TableRead.w32 ∧
    scanOrder 5 = [33, 34, 36].map TableRead.w32 := by
  decide

theorem scanOrder_facts (len : Int) (h2 : 2 ≤ len) (h5 : len ≤ 5) :
    (∀ r ∈ scanOrder len, inTable r = true) ∧ (scanOrder len).Perm (classWords len) := by
  have hl : len = 2 ∨ len = 3 ∨ len = 4 ∨ len = 5 := by omega
  rcases hl with h | h | h | h <;> subst h <;>
    exact ⟨by set_option maxRecDepth 100000 in decide,
      by set_option maxRecDepth 100000 in decide⟩

theorem log_reads (tbl extension : List Nat) (len : Int) (h2 : 2 ≤ len) (h5 : len ≤ 5) :
    (FileHasAcceptableExtensionLog tbl extension len).2 <+: scanOrder len ∧
    ((FileHasAcceptableExtensionLog tbl extension len).1 = -1 →
      (FileHasAcceptableExtensionLog tbl extension len).2 = scanOrder len) := by
  have hl : len = 2 ∨ len = 3 ∨ len = 4 ∨ len = 5 := by omega
  rcases hl with h | h | h | h
  · subst h
    exact log_reads_2 tbl extension
  · exact log_reads_34 tbl extension len (Or.inl h)
  · exact log_reads_34 tbl extension len (Or.inr h)
  · subst h
    exact log_reads_5 tbl extension

/-- C17: for every `len` in 2..5, every table word `FileHasAcceptableExtension`
reads lies inside `kValidExtensions` (38 32-bit words), and the offsets
computed from `size2`, `size3` and `size4` select exactly the words of that
length class. The words read are an initial part of the scan order of the
class, and the whole of it when nothing matches; the scan order is the 16-bit
words 1, 0 for `len` 2, the 32-bit words 17..26 (as pairs 25 26, 23 24, ...),
then 16..7, then 6..1 for `len` 3, the words 33 34, then 32..29, then 28 27
for `len` 4, and the words 33, 34, 36 for `len` 5. -/
theorem C17_table_reads_in_class (extension : List Nat) (len : Int)
    (h2 : 2 ≤ len) (h5 : len ≤ 5) :
    (FileHasAcceptableExtensionLog kValidExtensions extension len).1 =
      FileHasAcceptableExtension extension len ∧
    (∀ r ∈ (FileHasAcceptableExtensionLog kValidExtensions extension len).2,
      inTable r = true ∧ r ∈ classWords len) ∧
    (FileHasAcceptableExtensionLog kValidExtensions extension len).2 <+: scanOrder len ∧
    ((FileHasAcceptableExtension extension len = -1 →
      (FileHasAcceptableExtensionLog kValidExtensions extension len).2 = scanOrder len)) ∧
    (scanOrder len).Perm (classWords len) ∧
    (scanOrder 2 = [TableRead.w16 1, TableRead.w16 0] ∧
      scanOrder 3 =
        [25, 26, 23, 24, 21, 22, 19, 20, 17, 18].map TableRead.w32 ++
        [16, 15, 14, 13, 12, 11, 10, 9, 8, 7].map TableRead.w32 ++
        [6, 5, 4, 3, 2, 1].map TableRead.w32 ∧
      scanOrder 4 =
        [33, 34].map TableRead.w32 ++ [32, 31, 30, 29].map TableRead.w32 ++
        [28, 27].map TableRead.w32 ∧
      scanOrder 5 = [33, 34, 36].map TableRead.w32) := by
  have hr := log_result kValidExtensions extension len
  have hl := log_reads kValidExtensions extension len h2 h5
  have hf := scanOrder_facts len h2 h5
  refine ⟨hr, ?_, hl.1, ?_, hf.2, scanOrder_explicit⟩
  · intro r hm
    have hs := hl.1.subset hm
    exact ⟨hf.1 r hs, hf.2.subset hs⟩
  · intro hn
    apply hl.2
    rw [hr]
    exact hn

theorem C17_table_reads_in_class_witness :
    ((2 : Int) ≤ 3 ∧ (3 : Int) ≤ 5) ∧
    (FileHasAcceptableExtensionLog kValidExtensions (cstr (bytesOf "Mp4")) 3).2 =
      [TableRead.w32 25, TableRead.w32 26, TableRead.w32 23, TableRead.w32 24] ∧
    ∀ r ∈ (FileHasAcceptableExtensionLog kValidExtensions (cstr (bytesOf "Mp4")) 3).2,
      inTable r = true ∧ r ∈ classWords 3 :=
  ⟨by decide, by decide,
    (C17_table_reads_in_class (cstr (bytesOf "Mp4")) 3 (by decide) (by decide)).2.1⟩

end StagefrightMediaScanner
